import Mathlib

/-!
Verification development for the LAMC compiler front end
(`src/compiler/parser/parser.c`, `src/compiler/parser/ast.h`,
`src/compiler/lexer/token.h`, lexer implementation).

The parser is embedded shallowly: the pull-based lexer is modelled as the
list of tokens it would produce (the real lexer returns an end-of-file
token forever once the source is exhausted, which the model mirrors by
synthesizing an end-of-file token when the list is empty).  The parser
state mirrors `struct Parser` (current/previous token, sticky error flag,
panic flag) plus a ghost list of the diagnostics written to stderr by
`parser_error_at`.  Recursive parse functions take an explicit fuel
argument; the C code has no fuel and can diverge on some erroneous
inputs, so a run that exhausts its fuel simply stops (loops return the
accumulator gathered so far, expression parsers return the null result).
All theorems below either hold for every fuel value or instantiate the
fuel with a bound comfortably above the recursion depth of the concrete
input, so fuel exhaustion never drives a result.
-/

/-- Token kinds, mirroring the `TokenType` enum of `token.h`.
`bang` is `TOKEN_NOT` (`!`); `boolTrue`/`boolFalse` are
`TOKEN_TRUE`/`TOKEN_FALSE`; the `kw*` names are the keyword tokens. -/
inductive TokenType where
  | int | float | string | charLit | boolTrue | boolFalse
  | identifier
  | kwFunc | kwReturn | kwIf | kwElse | kwWhile | kwFor | kwIn | kwLoop
  | kwBreak | kwContinue | kwImport | kwExport | kwClass | kwThis
  | kwTry | kwCatch | kwFinally
  | plus | minus | star | slash | percent
  | equal | equalEqual | notEqual
  | less | greater | lessEqual | greaterEqual
  | andAnd | orOr | bang | ampersand | pipe | caret | tilde
  | dotDot | dotDotEqual
  | leftParen | rightParen | leftBrace | rightBrace
  | leftBracket | rightBracket
  | comma | colon | dot | arrow
  | newline | eof | error
  deriving DecidableEq, Repr

/-- A token, mirroring `struct Token`: kind, lexeme (the source span
`start`/`length` points at; for `TOKEN_ERROR` tokens the C start pointer
holds the error message, so `lexeme` holds it here), line and column. -/
structure Token where
  ttype : TokenType
  lexeme : String
  line : Nat
  column : Nat
  deriving DecidableEq, Repr

/-- Binary operators, mirroring `BinaryOp` of `ast.h`
(`andOp`/`orOp` are `OP_AND`/`OP_OR`). -/
inductive BinaryOp where
  | add | sub | mul | div | mod
  | eq | ne | lt | gt | le | ge
  | andOp | orOp
  | bitAnd | bitOr | bitXor
  | shl | shr
  deriving DecidableEq, Repr

/-- Unary operators, mirroring `UnaryOp` of `ast.h`
(`notOp` is `OP_NOT`, `bitNot` is `OP_BIT_NOT`). -/
inductive UnaryOp where
  | neg | notOp | bitNot
  deriving DecidableEq, Repr

mutual

/-- Syntax tree nodes, mirroring `struct AstNode` of `ast.h`: one
constructor per `AstNodeType`, carrying the fields of the corresponding
union member plus the source line and column passed to the
`ast_create_*` constructor.  Every C field of type `AstNode*` becomes an
`Option AstNode` (the null pointer is `none`); an `AstList*` of node
pointers becomes a `List (Option AstNode)` since the C list stores raw
pointers and `ast_list_append` is also called with null arguments.
`litFloat` carries the literal text; the C code stores the `strtod`
value, but binary floating point is outside this embedding and no
property below depends on a float value. -/
inductive AstNode where
  | binary (op : BinaryOp) (left right : Option AstNode) (line column : Nat)
  | unary (op : UnaryOp) (operand : Option AstNode) (line column : Nat)
  | litInt (value : Int) (line column : Nat)
  | litFloat (text : String) (line column : Nat)
  | litString (value : String) (line column : Nat)
  | litBool (value : Bool) (line column : Nat)
  | litNull (line column : Nat)
  | identifier (name : String) (line column : Nat)
  | call (callee : Option AstNode) (arguments : List (Option AstNode))
      (line column : Nat)
  | index (object idx : Option AstNode) (line column : Nat)
  | member (object : Option AstNode) (name : String) (line column : Nat)
  | array (elements : List (Option AstNode)) (line column : Nat)
  | dict (entries : List DictEntry) (line column : Nat)
  | varDecl (name : String) (typeName : Option String)
      (initializer : Option AstNode) (line column : Nat)
  | assign (target value : Option AstNode) (line column : Nat)
  | exprStmt (expr : Option AstNode) (line column : Nat)
  | ifStmt (condition thenBranch elseBranch : Option AstNode)
      (line column : Nat)
  | whileStmt (condition body : Option AstNode) (line column : Nat)
  | forStmt (varName : String) (iterable body : Option AstNode)
      (indexVar : Option String) (line column : Nat)
  | loopStmt (body : Option AstNode) (line column : Nat)
  | returnStmt (value : Option AstNode) (line column : Nat)
  | breakStmt (line column : Nat)
  | continueStmt (line column : Nat)
  | block (statements : List (Option AstNode)) (line column : Nat)
  | functionDecl (name : String) (parameters : List Parameter)
      (body : Option AstNode) (returnType : Option String)
      (line column : Nat)
  | classDecl (name : String) (methods fields : List (Option AstNode))
      (line column : Nat)
  | importStmt (moduleName : String) (line column : Nat)
  | program (declarations : List (Option AstNode))

/-- Function parameter record, mirroring `struct Parameter` of `ast.h`
(name, optional type annotation, optional default value). -/
inductive Parameter where
  | mk (name : String) (typeName : Option String)
      (defaultValue : Option AstNode)

/-- Dictionary entry, mirroring `struct DictEntry` of `ast.h`. -/
inductive DictEntry where
  | mk (key value : Option AstNode)

end

/-- The `line` field shared by every node (`node->line` in C).
`program` nodes: `ast_create_program` takes no position, so 0. -/
def AstNode.nodeLine : AstNode → Nat
  | .binary _ _ _ l _ => l
  | .unary _ _ l _ => l
  | .litInt _ l _ => l
  | .litFloat _ l _ => l
  | .litString _ l _ => l
  | .litBool _ l _ => l
  | .litNull l _ => l
  | .identifier _ l _ => l
  | .call _ _ l _ => l
  | .index _ _ l _ => l
  | .member _ _ l _ => l
  | .array _ l _ => l
  | .dict _ l _ => l
  | .varDecl _ _ _ l _ => l
  | .assign _ _ l _ => l
  | .exprStmt _ l _ => l
  | .ifStmt _ _ _ l _ => l
  | .whileStmt _ _ l _ => l
  | .forStmt _ _ _ _ l _ => l
  | .loopStmt _ l _ => l
  | .returnStmt _ l _ => l
  | .breakStmt l _ => l
  | .continueStmt l _ => l
  | .block _ l _ => l
  | .functionDecl _ _ _ _ l _ => l
  | .classDecl _ _ _ l _ => l
  | .importStmt _ l _ => l
  | .program _ => 0

/-- The `column` field shared by every node (`node->column` in C). -/
def AstNode.nodeColumn : AstNode → Nat
  | .binary _ _ _ _ c => c
  | .unary _ _ _ c => c
  | .litInt _ _ c => c
  | .litFloat _ _ c => c
  | .litString _ _ c => c
  | .litBool _ _ c => c
  | .litNull _ c => c
  | .identifier _ _ c => c
  | .call _ _ _ c => c
  | .index _ _ _ c => c
  | .member _ _ _ c => c
  | .array _ _ c => c
  | .dict _ _ c => c
  | .varDecl _ _ _ _ c => c
  | .assign _ _ _ c => c
  | .exprStmt _ _ c => c
  | .ifStmt _ _ _ _ c => c
  | .whileStmt _ _ _ c => c
  | .forStmt _ _ _ _ _ c => c
  | .loopStmt _ _ c => c
  | .returnStmt _ _ c => c
  | .breakStmt _ c => c
  | .continueStmt _ c => c
  | .block _ _ c => c
  | .functionDecl _ _ _ _ _ c => c
  | .classDecl _ _ _ _ c => c
  | .importStmt _ _ c => c
  | .program _ => 0

/-- Conversion of a base-10 digit string to an integer, modelling the
`strtol(num_str, NULL, 10)` call in `parser_parse_primary`: digits are
folded left to right and the scan stops at the first non-digit.  The
lexer only produces all-digit lexemes for `TOKEN_INT`, so the sign and
whitespace handling of `strtol` is never exercised. -/
def strtol_digits : List Char → Int → Int
  | [], acc => acc
  | c :: cs, acc =>
      if c.isDigit then strtol_digits cs (acc * 10 + (c.toNat - 48 : Nat))
      else acc

/-- `strtol` base 10 over a string. -/
def strtol10 (numStr : String) : Int :=
  strtol_digits numStr.toList 0

/-- One diagnostic record, mirroring what `parser_error_at` writes to
stderr: `[Line l, Column c] Error<at_part>: message`.  `at_part` is
` at end` for the end-of-file token, empty for a `TOKEN_ERROR` token and
` at <lexeme>` otherwise (the C code puts the lexeme in single quotes,
rendered here with `\x27`). -/
structure ErrMsg where
  line : Nat
  column : Nat
  at_part : String
  message : String
  deriving DecidableEq, Repr

/-- The `at ...` fragment printed by `parser_error_at`. -/
def err_at_part (tok : Token) : String :=
  if tok.ttype = .eof then " at end"
  else if tok.ttype = .error then ""
  else " at \x27" ++ tok.lexeme ++ "\x27"

/-- Parser state, mirroring `struct Parser` of `parser.h`.  The `Lexer*`
field is replaced by the list of tokens the lexer has not yet handed
out; `errors` is a ghost field recording the diagnostics printed by
`parser_error_at` (the C code only keeps the two flags). -/
structure Parser where
  tokens : List Token
  current : Token
  previous : Token
  had_error : Bool
  panic_mode : Bool
  errors : List ErrMsg
  deriving DecidableEq, Repr

/-- Placeholder for the uninitialized `current`/`previous` fields of a C
`Parser` before `parser_init` primes them; `parser_init` overwrites
`current`, and `previous` is never meaningfully read before the first
`parser_advance` inside a parse. -/
def null_token : Token :=
  { ttype := .eof, lexeme := "", line := 0, column := 0 }

/-- The token the lexer synthesizes once its input is exhausted
(`lexer_next_token` keeps returning a `TOKEN_EOF` token with an empty
lexeme; its line/column are the position of the end of the source, which
the token-list abstraction does not track, so 0 is used — concrete
inputs below carry an explicit end-of-file token instead). -/
def synth_eof : Token :=
  { ttype := .eof, lexeme := "", line := 0, column := 0 }

/-- `parser_error_at`: a no-op in panic mode, otherwise sets panic mode
and the sticky error flag and emits one diagnostic. -/
def parser_error_at (p : Parser) (tok : Token) (message : String) : Parser :=
  if p.panic_mode then p
  else
    { p with
      panic_mode := true
      had_error := true
      errors := p.errors ++
        [{ line := tok.line, column := tok.column,
           at_part := err_at_part tok, message := message }] }

/-- `parser_error_at_current`: report at the current token. -/
def parser_error_at_current (p : Parser) (message : String) : Parser :=
  parser_error_at p p.current message

/-- `parser_error`: report at the previous token. -/
def parser_error (p : Parser) (message : String) : Parser :=
  parser_error_at p p.previous message

/-- The token-skipping loop inside `parser_advance`: pull the next token
(the synthesized end-of-file token once the stream is empty), and while
it is a `TOKEN_ERROR` token report it (the message is the token text)
and pull again.  The list argument is the not-yet-consumed token stream,
kept in lockstep with the `tokens` field of the state. -/
def advance_skip : List Token → Parser → Parser
  | [], p => { p with tokens := [], current := synth_eof }
  | t :: ts, p =>
      let p1 := { p with tokens := ts, current := t }
      if t.ttype = .error then advance_skip ts (parser_error_at_current p1 t.lexeme)
      else p1

/-- `parser_advance`: previous := current, then pull tokens skipping
(and reporting) error tokens. -/
def parser_advance (p : Parser) : Parser :=
  advance_skip p.tokens { p with previous := p.current }

/-- `parser_init`: clear both flags and prime the parser with the first
token. -/
def parser_init (ts : List Token) : Parser :=
  parser_advance
    { tokens := ts, current := null_token, previous := null_token,
      had_error := false, panic_mode := false, errors := [] }

/-- `parser_check`: is the current token of the given kind. -/
def parser_check (p : Parser) (tt : TokenType) : Bool :=
  p.current.ttype = tt

/-- `parser_match`: advance on a kind match, reporting success. -/
def parser_match (p : Parser) (tt : TokenType) : Bool × Parser :=
  if p.current.ttype = tt then (true, parser_advance p) else (false, p)

/-- A `||`-chain of `parser_match` calls, as in the loop conditions of
the binary-operator levels (`parser_match(a) || parser_match(b) || ...`):
kinds are tried left to right and the first hit advances. -/
def parser_match_any (p : Parser) : List TokenType → Bool × Parser
  | [] => (false, p)
  | tt :: rest =>
      let (b, p1) := parser_match p tt
      if b then (true, p1) else parser_match_any p1 rest

/-- `parser_expect`: on a kind match return the matched token and
advance; otherwise report at the current token and return the current
token without advancing.  Both branches return what was
`parser->current` on entry. -/
def parser_expect (p : Parser) (tt : TokenType) (message : String) :
    Token × Parser :=
  if p.current.ttype = tt then (p.current, parser_advance p)
  else (p.current, parser_error_at_current p message)

/-- `parser_is_at_end`: current token is the end-of-file token. -/
def parser_is_at_end (p : Parser) : Bool :=
  p.current.ttype = .eof

/-- The token kinds `parser_synchronize` treats as the start of a new
top-level construct. -/
def sync_start (tt : TokenType) : Bool :=
  match tt with
  | .kwFunc | .kwIf | .kwWhile | .kwFor | .kwLoop
  | .kwReturn | .kwImport | .kwClass => true
  | _ => false

/-- The discarding loop of `parser_synchronize`: while the current token
is not end-of-file, stop after a newline token or before a
construct-starting token, otherwise advance. -/
def sync_loop : Nat → Parser → Parser
  | 0, p => p
  | fuel + 1, p =>
      if p.current.ttype = .eof then p
      else if p.previous.ttype = .newline then p
      else if sync_start p.current.ttype then p
      else sync_loop fuel (parser_advance p)

/-- `parser_synchronize`: clear panic mode, then discard tokens up to a
safe restart point.  Every loop iteration that does not exit consumes at
least one token from the stream (or leaves the parser on the
end-of-file token, on which the next iteration exits), so
`p.tokens.length + 2` rounds of fuel always exceed the number of
iterations the C loop performs and the loop below is exactly the C
loop. -/
def parser_synchronize (p : Parser) : Parser :=
  sync_loop (p.tokens.length + 2) { p with panic_mode := false }

mutual

/-- `parser_parse_primary`: literal, identifier, grouped expression and
array-literal parsing.  The leading test returns the null result without
reporting when the current token is `)`, `]` or end-of-file (the
"empty expression in parens or brackets" check of the C code). -/
def parser_parse_primary : Nat → Parser → Option AstNode × Parser
  | 0, p => (none, p)
  | fuel + 1, p =>
    if p.current.ttype = .rightParen ∨ p.current.ttype = .rightBracket ∨
        p.current.ttype = .eof then
      (none, p)
    else
    let (b, p) := parser_match p .int
    if b then
      let tok := p.previous
      (some (.litInt (strtol10 tok.lexeme) tok.line tok.column), p)
    else
    let (b, p) := parser_match p .float
    if b then
      let tok := p.previous
      (some (.litFloat tok.lexeme tok.line tok.column), p)
    else
    let (b, p) := parser_match p .string
    if b then
      let tok := p.previous
      (some (.litString ((tok.lexeme.drop 1).dropRight 1) tok.line tok.column), p)
    else
    let (b, p) := parser_match p .boolTrue
    if b then
      let tok := p.previous
      (some (.litBool true tok.line tok.column), p)
    else
    let (b, p) := parser_match p .boolFalse
    if b then
      let tok := p.previous
      (some (.litBool false tok.line tok.column), p)
    else
    let (b, p) := parser_match p .identifier
    if b then
      let tok := p.previous
      (some (.identifier tok.lexeme tok.line tok.column), p)
    else
    let (b, p) := parser_match p .leftParen
    if b then
      let (expr, p) := parser_parse_expression fuel p
      match expr with
      | none => (none, parser_error p "Expected expression after \x27(\x27")
      | some e =>
          let (_, p) := parser_expect p .rightParen
            "Expected \x27)\x27 after expression"
          (some e, p)
    else
    let (b, p) := parser_match p .leftBracket
    if b then
      let startTok := p.previous
      let (elements, p) :=
        if parser_check p .rightBracket then (([] : List (Option AstNode)), p)
        else parse_expr_list fuel [] p
      let (_, p) := parser_expect p .rightBracket
        "Expected \x27]\x27 after array elements"
      (some (.array elements startTok.line startTok.column), p)
    else
      (none, parser_error_at_current p "Expected expression")

/-- The `do \x7b expr; append \x7d while (match comma)` loop that the C
code repeats verbatim for call arguments (in `parse_postfix` and
`parse_postfix_continue`) and for array-literal elements: parse one
expression, append its (possibly null) result, continue after a comma. -/
def parse_expr_list : Nat → List (Option AstNode) → Parser →
    List (Option AstNode) × Parser
  | 0, acc, p => (acc, p)
  | fuel + 1, acc, p =>
    let (element, p) := parser_parse_expression fuel p
    let acc2 := acc ++ [element]
    let (b, p) := parser_match p .comma
    if b then parse_expr_list fuel acc2 p else (acc2, p)

/-- `parse_postfix_continue`: resume the postfix chain (call, index,
member access) on an already built expression node. -/
def parse_postfix_continue : Nat → Option AstNode → Parser →
    Option AstNode × Parser
  | 0, e, p => (e, p)
  | fuel + 1, e, p =>
    let (b, p) := parser_match p .leftParen
    if b then
      let (args, p) :=
        if parser_check p .rightParen then (([] : List (Option AstNode)), p)
        else parse_expr_list fuel [] p
      let (paren, p) := parser_expect p .rightParen
        "Expected \x27)\x27 after arguments"
      parse_postfix_continue fuel
        (some (.call e args paren.line paren.column)) p
    else
    let (b, p) := parser_match p .leftBracket
    if b then
      let (idx, p) := parser_parse_expression fuel p
      let (bracket, p) := parser_expect p .rightBracket
        "Expected \x27]\x27 after index"
      parse_postfix_continue fuel
        (some (.index e idx bracket.line bracket.column)) p
    else
    let (b, p) := parser_match p .dot
    if b then
      let (memberTok, p) := parser_expect p .identifier
        "Expected property name after \x27.\x27"
      parse_postfix_continue fuel
        (some (.member e memberTok.lexeme memberTok.line memberTok.column)) p
    else (e, p)

/-- `parse_postfix` of the C code: a primary followed by the postfix
chain.  The C function repeats the loop body of
`parse_postfix_continue` verbatim; the shared loop is used here. -/
def parse_postfix_expr : Nat → Parser → Option AstNode × Parser
  | 0, p => (none, p)
  | fuel + 1, p =>
    let (e, p) := parser_parse_primary fuel p
    parse_postfix_continue fuel e p

/-- `parse_unary`: prefix `-`, `!`, `~`. -/
def parse_unary : Nat → Parser → Option AstNode × Parser
  | 0, p => (none, p)
  | fuel + 1, p =>
    let (b, p) := parser_match p .minus
    if b then
      let op := p.previous
      let (operand, p) := parse_unary fuel p
      (some (.unary .neg operand op.line op.column), p)
    else
    let (b, p) := parser_match p .bang
    if b then
      let op := p.previous
      let (operand, p) := parse_unary fuel p
      (some (.unary .notOp operand op.line op.column), p)
    else
    let (b, p) := parser_match p .tilde
    if b then
      let op := p.previous
      let (operand, p) := parse_unary fuel p
      (some (.unary .bitNot operand op.line op.column), p)
    else parse_postfix_expr fuel p

/-- The `while` loop of `parse_factor` (multiplicative operators). -/
def parse_factor_loop : Nat → Option AstNode → Parser →
    Option AstNode × Parser
  | 0, e, p => (e, p)
  | fuel + 1, e, p =>
    let (b, p) := parser_match_any p [.star, .slash, .percent]
    if b then
      let op := p.previous
      let (right, p) := parse_unary fuel p
      let binOp : BinaryOp :=
        if op.ttype = .star then .mul
        else if op.ttype = .slash then .div
        else .mod
      parse_factor_loop fuel
        (some (.binary binOp e right op.line op.column)) p
    else (e, p)

/-- `parse_factor`: `*`, `/`, `%`, left associative. -/
def parse_factor : Nat → Parser → Option AstNode × Parser
  | 0, p => (none, p)
  | fuel + 1, p =>
    let (e, p) := parse_unary fuel p
    parse_factor_loop fuel e p

/-- The `while` loop of `parse_term` (additive operators). -/
def parse_term_loop : Nat → Option AstNode → Parser →
    Option AstNode × Parser
  | 0, e, p => (e, p)
  | fuel + 1, e, p =>
    let (b, p) := parser_match_any p [.plus, .minus]
    if b then
      let op := p.previous
      let (right, p) := parse_factor fuel p
      let binOp : BinaryOp := if op.ttype = .plus then .add else .sub
      parse_term_loop fuel
        (some (.binary binOp e right op.line op.column)) p
    else (e, p)

/-- `parse_term`: `+`, `-`, left associative. -/
def parse_term : Nat → Parser → Option AstNode × Parser
  | 0, p => (none, p)
  | fuel + 1, p =>
    let (e, p) := parse_factor fuel p
    parse_term_loop fuel e p

/-- The `while` loop of `parse_comparison` (relational operators); the
`default` arm of the C switch falls back to `OP_LT`. -/
def parse_comparison_loop : Nat → Option AstNode → Parser →
    Option AstNode × Parser
  | 0, e, p => (e, p)
  | fuel + 1, e, p =>
    let (b, p) := parser_match_any p [.less, .greater, .lessEqual, .greaterEqual]
    if b then
      let op := p.previous
      let (right, p) := parse_term fuel p
      let binOp : BinaryOp :=
        match op.ttype with
        | .less => .lt
        | .greater => .gt
        | .lessEqual => .le
        | .greaterEqual => .ge
        | _ => .lt
      parse_comparison_loop fuel
        (some (.binary binOp e right op.line op.column)) p
    else (e, p)

/-- `parse_comparison`: `<`, `>`, `<=`, `>=`, left associative. -/
def parse_comparison : Nat → Parser → Option AstNode × Parser
  | 0, p => (none, p)
  | fuel + 1, p =>
    let (e, p) := parse_term fuel p
    parse_comparison_loop fuel e p

/-- The `while` loop of `parse_equality`. -/
def parse_equality_loop : Nat → Option AstNode → Parser →
    Option AstNode × Parser
  | 0, e, p => (e, p)
  | fuel + 1, e, p =>
    let (b, p) := parser_match_any p [.equalEqual, .notEqual]
    if b then
      let op := p.previous
      let (right, p) := parse_comparison fuel p
      let binOp : BinaryOp := if op.ttype = .equalEqual then .eq else .ne
      parse_equality_loop fuel
        (some (.binary binOp e right op.line op.column)) p
    else (e, p)

/-- `parse_equality`: `==`, `!=`, left associative. -/
def parse_equality : Nat → Parser → Option AstNode × Parser
  | 0, p => (none, p)
  | fuel + 1, p =>
    let (e, p) := parse_comparison fuel p
    parse_equality_loop fuel e p

/-- The `while` loop of `parse_logical_and`. -/
def parse_logical_and_loop : Nat → Option AstNode → Parser →
    Option AstNode × Parser
  | 0, e, p => (e, p)
  | fuel + 1, e, p =>
    let (b, p) := parser_match p .andAnd
    if b then
      let op := p.previous
      let (right, p) := parse_equality fuel p
      parse_logical_and_loop fuel
        (some (.binary .andOp e right op.line op.column)) p
    else (e, p)

/-- `parse_logical_and`: `&&`, left associative. -/
def parse_logical_and : Nat → Parser → Option AstNode × Parser
  | 0, p => (none, p)
  | fuel + 1, p =>
    let (e, p) := parse_equality fuel p
    parse_logical_and_loop fuel e p

/-- The `while` loop of `parse_logical_or`. -/
def parse_logical_or_loop : Nat → Option AstNode → Parser →
    Option AstNode × Parser
  | 0, e, p => (e, p)
  | fuel + 1, e, p =>
    let (b, p) := parser_match p .orOr
    if b then
      let op := p.previous
      let (right, p) := parse_logical_and fuel p
      parse_logical_or_loop fuel
        (some (.binary .orOp e right op.line op.column)) p
    else (e, p)

/-- `parse_logical_or`: `||`, left associative. -/
def parse_logical_or : Nat → Parser → Option AstNode × Parser
  | 0, p => (none, p)
  | fuel + 1, p =>
    let (e, p) := parse_logical_and fuel p
    parse_logical_or_loop fuel e p

/-- `parser_parse_expression`: entry point of the precedence chain
(defers to `parse_logical_or`; one fuel tick is consumed so the mutual
recursion is structural). -/
def parser_parse_expression : Nat → Parser → Option AstNode × Parser
  | 0, p => (none, p)
  | fuel + 1, p => parse_logical_or fuel p

end

mutual

/-- The `while` loop of `parse_block_statement`: repeatedly invoke the
statement dispatcher until `\x7d` or end-of-input, appending only
non-null statements. -/
def parse_block_loop : Nat → List (Option AstNode) → Parser →
    List (Option AstNode) × Parser
  | 0, acc, p => (acc, p)
  | fuel + 1, acc, p =>
    if parser_check p .rightBrace || parser_is_at_end p then (acc, p)
    else
      let (stmt, p) := parser_parse_statement fuel p
      match stmt with
      | some st => parse_block_loop fuel (acc ++ [some st]) p
      | none => parse_block_loop fuel acc p

/-- `parse_block_statement`: `\x7b`-opened statement sequence; a block
node is returned whether or not the braces were actually present. -/
def parse_block_statement : Nat → Parser → Option AstNode × Parser
  | 0, p => (none, p)
  | fuel + 1, p =>
    let (brace, p) := parser_expect p .leftBrace
      "Expected \x27\x7b\x27 to begin block"
    let (statements, p) := parse_block_loop fuel [] p
    let (_, p) := parser_expect p .rightBrace
      "Expected \x27\x7d\x27 after block"
    (some (.block statements brace.line brace.column), p)

/-- `parse_if_statement` (entered with `if` already consumed): a null
condition aborts with a null result after reporting; otherwise
then-branch (block or single statement) and optional else branch
(else-if recursion, block, or single statement). -/
def parse_if_statement : Nat → Parser → Option AstNode × Parser
  | 0, p => (none, p)
  | fuel + 1, p =>
    let ifTok := p.previous
    let (condition, p) := parser_parse_expression fuel p
    match condition with
    | none => (none, parser_error p "Expected condition in if statement")
    | some cond =>
      let (thenBranch, p) :=
        if parser_check p .leftBrace then parse_block_statement fuel p
        else parser_parse_statement fuel p
      let (elseBranch, p) :=
        let (b, p) := parser_match p .kwElse
        if b then
          if parser_check p .kwIf then
            let p := parser_advance p
            parse_if_statement fuel p
          else if parser_check p .leftBrace then parse_block_statement fuel p
          else parser_parse_statement fuel p
        else ((none : Option AstNode), p)
      (some (.ifStmt (some cond) thenBranch elseBranch
          ifTok.line ifTok.column), p)

/-- `parse_while_statement` (entered with `while` already consumed). -/
def parse_while_statement : Nat → Parser → Option AstNode × Parser
  | 0, p => (none, p)
  | fuel + 1, p =>
    let whileTok := p.previous
    let (condition, p) := parser_parse_expression fuel p
    match condition with
    | none => (none, parser_error p "Expected condition in while statement")
    | some cond =>
      let (body, p) :=
        if parser_check p .leftBrace then parse_block_statement fuel p
        else parser_parse_statement fuel p
      (some (.whileStmt (some cond) body whileTok.line whileTok.column), p)

/-- `parse_for_statement` (entered with `for` already consumed): the
first identifier is provisionally the value variable; a comma promotes
it to the index variable and the next identifier becomes the value
variable; then the required `in`, the iterable and the body. -/
def parse_for_statement : Nat → Parser → Option AstNode × Parser
  | 0, p => (none, p)
  | fuel + 1, p =>
    let forTok := p.previous
    let (varTok, p) := parser_expect p .identifier
      "Expected variable name in for loop"
    let varName := varTok.lexeme
    let (b, p) := parser_match p .comma
    let (indexVar, valueVar, p) :=
      if b then
        let (valueTok, p) := parser_expect p .identifier
          "Expected value variable after \x27,\x27"
        (some varName, valueTok.lexeme, p)
      else ((none : Option String), varName, p)
    let (_, p) := parser_expect p .kwIn "Expected \x27in\x27 in for loop"
    let (iterable, p) := parser_parse_expression fuel p
    match iterable with
    | none => (none, parser_error p "Expected iterable expression in for loop")
    | some iter =>
      let (body, p) :=
        if parser_check p .leftBrace then parse_block_statement fuel p
        else parser_parse_statement fuel p
      (some (.forStmt valueVar (some iter) body indexVar
          forTok.line forTok.column), p)

/-- `parse_loop_statement` (entered with `loop` already consumed). -/
def parse_loop_statement : Nat → Parser → Option AstNode × Parser
  | 0, p => (none, p)
  | fuel + 1, p =>
    let loopTok := p.previous
    let (body, p) :=
      if parser_check p .leftBrace then parse_block_statement fuel p
      else parser_parse_statement fuel p
    (some (.loopStmt body loopTok.line loopTok.column), p)

/-- `parse_return_statement` (entered with `return` already consumed);
`parser_is_at_end` repeats the end-of-file check of the preceding
`parser_check`, as in the C condition. -/
def parse_return_statement : Nat → Parser → Option AstNode × Parser
  | 0, p => (none, p)
  | fuel + 1, p =>
    let returnTok := p.previous
    let (value, p) :=
      if !parser_check p .rightBrace && !parser_check p .eof &&
          !parser_is_at_end p then
        parser_parse_expression fuel p
      else ((none : Option AstNode), p)
    (some (.returnStmt value returnTok.line returnTok.column), p)

/-- The parameter `do`/`while (match comma)` loop of
`parse_function_declaration`; parameters are created with a null default
value. -/
def parse_param_list : Nat → List Parameter → Parser →
    List Parameter × Parser
  | 0, acc, p => (acc, p)
  | fuel + 1, acc, p =>
    let (paramTok, p) := parser_expect p .identifier "Expected parameter name"
    let (b, p) := parser_match p .colon
    let (paramType, p) :=
      if b then
        let (typeTok, p) := parser_expect p .identifier
          "Expected parameter type"
        (some typeTok.lexeme, p)
      else ((none : Option String), p)
    let acc2 := acc ++ [Parameter.mk paramTok.lexeme paramType none]
    let (b2, p) := parser_match p .comma
    if b2 then parse_param_list fuel acc2 p else (acc2, p)

/-- `parse_function_declaration` (entered with `func` already
consumed). -/
def parse_function_declaration : Nat → Parser → Option AstNode × Parser
  | 0, p => (none, p)
  | fuel + 1, p =>
    let funcTok := p.previous
    let (nameTok, p) := parser_expect p .identifier "Expected function name"
    let funcName := nameTok.lexeme
    let (_, p) := parser_expect p .leftParen
      "Expected \x27(\x27 after function name"
    let (params, p) :=
      if parser_check p .rightParen then (([] : List Parameter), p)
      else parse_param_list fuel [] p
    let (_, p) := parser_expect p .rightParen
      "Expected \x27)\x27 after parameters"
    let (b, p) := parser_match p .arrow
    let (returnType, p) :=
      if b then
        let (typeTok, p) := parser_expect p .identifier "Expected return type"
        (some typeTok.lexeme, p)
      else ((none : Option String), p)
    let (body, p) := parse_block_statement fuel p
    (some (.functionDecl funcName params body returnType
        funcTok.line funcTok.column), p)

/-- `parser_parse_statement`: statement dispatch.  An initial identifier
is consumed speculatively, then: `:` commits to a typed declaration,
`=` to an untyped declaration, anything else synthesizes an identifier
node and resumes the postfix chain on it, wrapping the result in an
expression statement (a following binary operator is NOT absorbed: the
C comment notes the precedence climb is not restarted).  The final
`none` arm of that branch is unreachable — `parse_postfix_continue`
keeps a non-null input non-null — and corresponds to the C code
dereferencing `expr` unconditionally. -/
def parser_parse_statement : Nat → Parser → Option AstNode × Parser
  | 0, p => (none, p)
  | fuel + 1, p =>
    if parser_check p .identifier then
      let nameTok := p.current
      let p := parser_advance p
      if parser_check p .colon then
        let p := parser_advance p
        let (typeTok, p) := parser_expect p .identifier "Expected type name"
        let (_, p) := parser_expect p .equal "Expected \x27=\x27 after type"
        let (init, p) := parser_parse_expression fuel p
        (some (.varDecl nameTok.lexeme (some typeTok.lexeme) init
            nameTok.line nameTok.column), p)
      else if parser_check p .equal then
        let p := parser_advance p
        let (value, p) := parser_parse_expression fuel p
        (some (.varDecl nameTok.lexeme none value
            nameTok.line nameTok.column), p)
      else
        let idNode := AstNode.identifier nameTok.lexeme
          nameTok.line nameTok.column
        let (expr2, p) := parse_postfix_continue fuel (some idNode) p
        match expr2 with
        | some e => (some (.exprStmt (some e) e.nodeLine e.nodeColumn), p)
        | none => (none, p)
    else
    let (b, p) := parser_match p .kwIf
    if b then parse_if_statement fuel p
    else
    let (b, p) := parser_match p .kwWhile
    if b then parse_while_statement fuel p
    else
    let (b, p) := parser_match p .kwFor
    if b then parse_for_statement fuel p
    else
    let (b, p) := parser_match p .kwLoop
    if b then parse_loop_statement fuel p
    else
    let (b, p) := parser_match p .kwReturn
    if b then parse_return_statement fuel p
    else
    let (b, p) := parser_match p .kwBreak
    if b then (some (.breakStmt p.previous.line p.previous.column), p)
    else
    let (b, p) := parser_match p .kwContinue
    if b then (some (.continueStmt p.previous.line p.previous.column), p)
    else
      let (expr, p) := parser_parse_expression fuel p
      match expr with
      | none => (none, p)
      | some e => (some (.exprStmt (some e) e.nodeLine e.nodeColumn), p)

/-- `parser_parse_declaration`: `func` starts a function declaration,
anything else is a statement. -/
def parser_parse_declaration : Nat → Parser → Option AstNode × Parser
  | 0, p => (none, p)
  | fuel + 1, p =>
    let (b, p) := parser_match p .kwFunc
    if b then parse_function_declaration fuel p
    else parser_parse_statement fuel p

/-- The top-level `while (!parser_is_at_end)` loop of `parser_parse`:
parse one declaration, append it if non-null, resynchronize if the
declaration left the parser in panic mode. -/
def parse_program_loop : Nat → List (Option AstNode) → Parser →
    List (Option AstNode) × Parser
  | 0, acc, p => (acc, p)
  | fuel + 1, acc, p =>
    if parser_is_at_end p then (acc, p)
    else
      let (decl, p) := parser_parse_declaration fuel p
      let acc2 := match decl with
        | some d => acc ++ [some d]
        | none => acc
      let p := if p.panic_mode then parser_synchronize p else p
      parse_program_loop fuel acc2 p

end

/-- `parser_parse`: run the top-level loop; if the sticky error flag was
ever set, free the assembled declarations (freeing is modelled by
discarding the list) and return the null result, otherwise return the
program node owning the declarations in order. -/
def parser_parse (fuel : Nat) (p : Parser) : Option AstNode × Parser :=
  let (declarations, p) := parse_program_loop fuel [] p
  if p.had_error then (none, p)
  else (some (.program declarations), p)

/-- Token stream of the source text `print("Hello")`. -/
def c1_tokens : List Token :=
  [⟨.identifier, "print", 1, 1⟩, ⟨.leftParen, "(", 1, 6⟩,
   ⟨.string, "\x22Hello\x22", 1, 7⟩, ⟨.rightParen, ")", 1, 14⟩,
   ⟨.eof, "", 1, 15⟩]

/-- Token stream of a lone `+` (no valid statement). -/
def c2_tokens : List Token :=
  [⟨.plus, "+", 1, 1⟩, ⟨.eof, "", 1, 2⟩]

/-- Token stream of `foo( if x { }`: an unclosed call followed, at the
construct-starting token `if`, by a well-formed if statement. -/
def c3_tokens : List Token :=
  [⟨.identifier, "foo", 1, 1⟩, ⟨.leftParen, "(", 1, 4⟩,
   ⟨.kwIf, "if", 1, 6⟩, ⟨.identifier, "x", 1, 9⟩,
   ⟨.leftBrace, "\x7b", 1, 11⟩, ⟨.rightBrace, "\x7d", 1, 13⟩,
   ⟨.eof, "", 1, 14⟩]

/-- Token stream of `2 + 3 * 4`. -/
def c4a_tokens : List Token :=
  [⟨.int, "2", 1, 1⟩, ⟨.plus, "+", 1, 3⟩, ⟨.int, "3", 1, 5⟩,
   ⟨.star, "*", 1, 7⟩, ⟨.int, "4", 1, 9⟩, ⟨.eof, "", 1, 10⟩]

/-- Token stream of `(2 + 3) * 4`. -/
def c4b_tokens : List Token :=
  [⟨.leftParen, "(", 1, 1⟩, ⟨.int, "2", 1, 2⟩, ⟨.plus, "+", 1, 4⟩,
   ⟨.int, "3", 1, 6⟩, ⟨.rightParen, ")", 1, 7⟩, ⟨.star, "*", 1, 9⟩,
   ⟨.int, "4", 1, 11⟩, ⟨.eof, "", 1, 12⟩]

/-- Token stream of `x = 42`. -/
def c5a_tokens : List Token :=
  [⟨.identifier, "x", 1, 1⟩, ⟨.equal, "=", 1, 3⟩, ⟨.int, "42", 1, 5⟩,
   ⟨.eof, "", 1, 7⟩]

/-- Token stream of `x: int = 42`. -/
def c5b_tokens : List Token :=
  [⟨.identifier, "x", 1, 1⟩, ⟨.colon, ":", 1, 2⟩,
   ⟨.identifier, "int", 1, 4⟩, ⟨.equal, "=", 1, 8⟩, ⟨.int, "42", 1, 10⟩,
   ⟨.eof, "", 1, 12⟩]

/-- Token stream of `x.y`. -/
def c5c_tokens : List Token :=
  [⟨.identifier, "x", 1, 1⟩, ⟨.dot, ".", 1, 2⟩, ⟨.identifier, "y", 1, 3⟩,
   ⟨.eof, "", 1, 4⟩]

/-- Token stream of `if { }`: an if statement with no condition
expression before its then-block. -/
def c6a_tokens : List Token :=
  [⟨.kwIf, "if", 1, 1⟩, ⟨.leftBrace, "\x7b", 1, 4⟩,
   ⟨.rightBrace, "\x7d", 1, 6⟩, ⟨.eof, "", 1, 7⟩]

/-- Token stream of `if x { } else if y { } else { }`. -/
def c6b_tokens : List Token :=
  [⟨.kwIf, "if", 1, 1⟩, ⟨.identifier, "x", 1, 4⟩,
   ⟨.leftBrace, "\x7b", 1, 6⟩, ⟨.rightBrace, "\x7d", 1, 8⟩,
   ⟨.kwElse, "else", 1, 10⟩, ⟨.kwIf, "if", 1, 15⟩,
   ⟨.identifier, "y", 1, 18⟩, ⟨.leftBrace, "\x7b", 1, 20⟩,
   ⟨.rightBrace, "\x7d", 1, 22⟩, ⟨.kwElse, "else", 1, 24⟩,
   ⟨.leftBrace, "\x7b", 1, 29⟩, ⟨.rightBrace, "\x7d", 1, 31⟩,
   ⟨.eof, "", 1, 32⟩]

/-- Token stream of `{ x = 1` (block with a missing closing brace). -/
def c7a_tokens : List Token :=
  [⟨.leftBrace, "\x7b", 1, 1⟩, ⟨.identifier, "x", 1, 3⟩,
   ⟨.equal, "=", 1, 5⟩, ⟨.int, "1", 1, 7⟩, ⟨.eof, "", 1, 8⟩]

/-- Token stream of `{ }`. -/
def c7b_tokens : List Token :=
  [⟨.leftBrace, "\x7b", 1, 1⟩, ⟨.rightBrace, "\x7d", 1, 3⟩,
   ⟨.eof, "", 1, 4⟩]

/-- Token stream of `()`. -/
def c8a_tokens : List Token :=
  [⟨.leftParen, "(", 1, 1⟩, ⟨.rightParen, ")", 1, 2⟩, ⟨.eof, "", 1, 3⟩]

/-- Token stream of `[]`. -/
def c8b_tokens : List Token :=
  [⟨.leftBracket, "[", 1, 1⟩, ⟨.rightBracket, "]", 1, 2⟩,
   ⟨.eof, "", 1, 3⟩]

/-- An empty token stream: a primary position at end-of-input. -/
def c8e_tokens : List Token :=
  [⟨.eof, "", 1, 1⟩]

/-- Token stream of `for i in X { }`. -/
def c9a_tokens : List Token :=
  [⟨.kwFor, "for", 1, 1⟩, ⟨.identifier, "i", 1, 5⟩, ⟨.kwIn, "in", 1, 7⟩,
   ⟨.identifier, "X", 1, 10⟩, ⟨.leftBrace, "\x7b", 1, 12⟩,
   ⟨.rightBrace, "\x7d", 1, 14⟩, ⟨.eof, "", 1, 15⟩]

/-- Token stream of `for i, v in X { }`. -/
def c9b_tokens : List Token :=
  [⟨.kwFor, "for", 1, 1⟩, ⟨.identifier, "i", 1, 5⟩, ⟨.comma, ",", 1, 6⟩,
   ⟨.identifier, "v", 1, 8⟩, ⟨.kwIn, "in", 1, 10⟩,
   ⟨.identifier, "X", 1, 13⟩, ⟨.leftBrace, "\x7b", 1, 15⟩,
   ⟨.rightBrace, "\x7d", 1, 17⟩, ⟨.eof, "", 1, 18⟩]

/-- Token stream of `for i X { }` (missing `in`). -/
def c9c_tokens : List Token :=
  [⟨.kwFor, "for", 1, 1⟩, ⟨.identifier, "i", 1, 5⟩,
   ⟨.identifier, "X", 1, 7⟩, ⟨.leftBrace, "\x7b", 1, 9⟩,
   ⟨.rightBrace, "\x7d", 1, 11⟩, ⟨.eof, "", 1, 12⟩]

/-- Token stream of the statement `a + b`. -/
def c10a_tokens : List Token :=
  [⟨.identifier, "a", 1, 1⟩, ⟨.plus, "+", 1, 3⟩, ⟨.identifier, "b", 1, 5⟩,
   ⟨.eof, "", 1, 6⟩]

/-- Token stream of the statement `1 + b`. -/
def c10b_tokens : List Token :=
  [⟨.int, "1", 1, 1⟩, ⟨.plus, "+", 1, 3⟩, ⟨.identifier, "b", 1, 5⟩,
   ⟨.eof, "", 1, 6⟩]

/-- The token kinds that can start a primary expression in
`parser_parse_primary` (integer, float, string and boolean literals,
identifiers, `(` and `[`). -/
def primary_starter (tt : TokenType) : Bool :=
  match tt with
  | .int | .float | .string | .boolTrue | .boolFalse
  | .identifier | .leftParen | .leftBracket => true
  | _ => false

/-- The token kinds on which `parser_parse_primary` returns the null
result silently (the leading "empty expression in parens or brackets"
check): `)`, `]` and end-of-file. -/
def silent_null (tt : TokenType) : Bool :=
  match tt with
  | .rightParen | .rightBracket | .eof => true
  | _ => false

/-- The sticky-error-flag relation between an input and an output parser
state: if the flag was set before, it is still set after. -/
def errKeeps (p q : Parser) : Prop :=
  p.had_error = true → q.had_error = true

theorem errKeeps_refl (p : Parser) : errKeeps p p :=
  fun h => h

theorem errKeeps_trans {p q r : Parser} (h1 : errKeeps p q)
    (h2 : errKeeps q r) : errKeeps p r :=
  fun h => h2 (h1 h)

theorem errKeeps_error_at (p : Parser) (t : Token) (m : String) :
    errKeeps p (parser_error_at p t m) := by
  intro h
  unfold parser_error_at
  split
  · exact h
  · rfl

theorem errKeeps_error_at_current (p : Parser) (m : String) :
    errKeeps p (parser_error_at_current p m) :=
  errKeeps_error_at p p.current m

theorem errKeeps_error (p : Parser) (m : String) :
    errKeeps p (parser_error p m) :=
  errKeeps_error_at p p.previous m

theorem errKeeps_advance_skip : ∀ (ts : List Token) (p : Parser),
    errKeeps p (advance_skip ts p)
  | [], _ => fun h => h
  | t :: ts, p => by
    intro h
    unfold advance_skip
    split
    · exact errKeeps_advance_skip ts _ (errKeeps_error_at_current _ _ h)
    · exact h

theorem errKeeps_advance (p : Parser) : errKeeps p (parser_advance p) :=
  errKeeps_advance_skip p.tokens { p with previous := p.current }

theorem errKeeps_match (p : Parser) (tt : TokenType) :
    errKeeps p (parser_match p tt).2 := by
  intro h
  unfold parser_match
  split
  · exact errKeeps_advance p h
  · exact h

theorem errKeeps_match_any : ∀ (p : Parser) (tts : List TokenType),
    errKeeps p (parser_match_any p tts).2
  | _, [] => fun h => h
  | p, tt :: rest => by
    intro h
    unfold parser_match_any
    rcases hm : parser_match p tt with ⟨b, p1⟩
    have h1 : p1.had_error = true := by
      have := errKeeps_match p tt h
      rwa [hm] at this
    cases b <;> simp only
    · exact errKeeps_match_any p1 rest h1
    · exact h1

theorem errKeeps_expect (p : Parser) (tt : TokenType) (m : String) :
    errKeeps p (parser_expect p tt m).2 := by
  intro h
  unfold parser_expect
  split
  · exact errKeeps_advance p h
  · exact errKeeps_error_at_current p m h

theorem errKeeps_sync_loop : ∀ (fuel : Nat) (p : Parser),
    errKeeps p (sync_loop fuel p)
  | 0, _ => fun h => h
  | fuel + 1, p => by
    intro h
    unfold sync_loop
    split
    · exact h
    split
    · exact h
    split
    · exact h
    · exact errKeeps_sync_loop fuel _ (errKeeps_advance p h)

theorem errKeeps_synchronize (p : Parser) :
    errKeeps p (parser_synchronize p) :=
  errKeeps_sync_loop _ { p with panic_mode := false }

/-- Bundle of sticky-error-flag monotonicity statements, one per
recursive parse function, at a fixed fuel value; proved for every fuel
by mutual induction below. -/
structure ParseErrMono (fuel : Nat) : Prop where
  primaryM : ∀ p, errKeeps p (parser_parse_primary fuel p).2
  exprListM : ∀ acc p, errKeeps p (parse_expr_list fuel acc p).2
  postfixContM : ∀ e p, errKeeps p (parse_postfix_continue fuel e p).2
  postfixExprM : ∀ p, errKeeps p (parse_postfix_expr fuel p).2
  unaryM : ∀ p, errKeeps p (parse_unary fuel p).2
  factorLoopM : ∀ e p, errKeeps p (parse_factor_loop fuel e p).2
  factorM : ∀ p, errKeeps p (parse_factor fuel p).2
  termLoopM : ∀ e p, errKeeps p (parse_term_loop fuel e p).2
  termM : ∀ p, errKeeps p (parse_term fuel p).2
  comparisonLoopM : ∀ e p, errKeeps p (parse_comparison_loop fuel e p).2
  comparisonM : ∀ p, errKeeps p (parse_comparison fuel p).2
  equalityLoopM : ∀ e p, errKeeps p (parse_equality_loop fuel e p).2
  equalityM : ∀ p, errKeeps p (parse_equality fuel p).2
  andLoopM : ∀ e p, errKeeps p (parse_logical_and_loop fuel e p).2
  andM : ∀ p, errKeeps p (parse_logical_and fuel p).2
  orLoopM : ∀ e p, errKeeps p (parse_logical_or_loop fuel e p).2
  orM : ∀ p, errKeeps p (parse_logical_or fuel p).2
  exprM : ∀ p, errKeeps p (parser_parse_expression fuel p).2
  blockLoopM : ∀ acc p, errKeeps p (parse_block_loop fuel acc p).2
  blockM : ∀ p, errKeeps p (parse_block_statement fuel p).2
  ifM : ∀ p, errKeeps p (parse_if_statement fuel p).2
  whileM : ∀ p, errKeeps p (parse_while_statement fuel p).2
  forM : ∀ p, errKeeps p (parse_for_statement fuel p).2
  loopM : ∀ p, errKeeps p (parse_loop_statement fuel p).2
  returnM : ∀ p, errKeeps p (parse_return_statement fuel p).2
  paramListM : ∀ acc p, errKeeps p (parse_param_list fuel acc p).2
  funcM : ∀ p, errKeeps p (parse_function_declaration fuel p).2
  stmtM : ∀ p, errKeeps p (parser_parse_statement fuel p).2
  declM : ∀ p, errKeeps p (parser_parse_declaration fuel p).2
  progLoopM : ∀ acc p, errKeeps p (parse_program_loop fuel acc p).2

theorem factor_loop_mono_step (fuel : Nat) (ih : ParseErrMono fuel) :
    ∀ e p, errKeeps p (parse_factor_loop (fuel + 1) e p).2 := by
  intro e p h
  unfold parse_factor_loop
  rcases hm : parser_match_any p [.star, .slash, .percent] with ⟨b, p1⟩
  have h1 : p1.had_error = true := by
    have := errKeeps_match_any p [.star, .slash, .percent] h
    rwa [hm] at this
  cases b <;> simp only
  · exact h1
  · rcases hu : parse_unary fuel p1 with ⟨right, p2⟩
    have h2 : p2.had_error = true := by
      have := ih.unaryM p1 h1
      rwa [hu] at this
    simp only
    exact ih.factorLoopM _ p2 h2

theorem factor_mono_step (fuel : Nat) (ih : ParseErrMono fuel) :
    ∀ p, errKeeps p (parse_factor (fuel + 1) p).2 := by
  intro p h
  unfold parse_factor
  rcases hu : parse_unary fuel p with ⟨e, p1⟩
  have h1 : p1.had_error = true := by
    have := ih.unaryM p h
    rwa [hu] at this
  simp only
  exact ih.factorLoopM e p1 h1

theorem term_loop_mono_step (fuel : Nat) (ih : ParseErrMono fuel) :
    ∀ e p, errKeeps p (parse_term_loop (fuel + 1) e p).2 := by
  intro e p h
  unfold parse_term_loop
  rcases hm : parser_match_any p [.plus, .minus] with ⟨b, p1⟩
  have h1 : p1.had_error = true := by
    have := errKeeps_match_any p [.plus, .minus] h
    rwa [hm] at this
  cases b <;> simp only
  · exact h1
  · rcases hr : parse_factor fuel p1 with ⟨right, p2⟩
    have h2 : p2.had_error = true := by
      have := ih.factorM p1 h1
      rwa [hr] at this
    simp only
    exact ih.termLoopM _ p2 h2

theorem term_mono_step (fuel : Nat) (ih : ParseErrMono fuel) :
    ∀ p, errKeeps p (parse_term (fuel + 1) p).2 := by
  intro p h
  unfold parse_term
  rcases hu : parse_factor fuel p with ⟨e, p1⟩
  have h1 : p1.had_error = true := by
    have := ih.factorM p h
    rwa [hu] at this
  simp only
  exact ih.termLoopM e p1 h1

theorem comparison_loop_mono_step (fuel : Nat) (ih : ParseErrMono fuel) :
    ∀ e p, errKeeps p (parse_comparison_loop (fuel + 1) e p).2 := by
  intro e p h
  unfold parse_comparison_loop
  rcases hm : parser_match_any p [.less, .greater, .lessEqual, .greaterEqual]
    with ⟨b, p1⟩
  have h1 : p1.had_error = true := by
    have := errKeeps_match_any p [.less, .greater, .lessEqual, .greaterEqual] h
    rwa [hm] at this
  cases b <;> simp only
  · exact h1
  · rcases hr : parse_term fuel p1 with ⟨right, p2⟩
    have h2 : p2.had_error = true := by
      have := ih.termM p1 h1
      rwa [hr] at this
    simp only
    exact ih.comparisonLoopM _ p2 h2

theorem comparison_mono_step (fuel : Nat) (ih : ParseErrMono fuel) :
    ∀ p, errKeeps p (parse_comparison (fuel + 1) p).2 := by
  intro p h
  unfold parse_comparison
  rcases hu : parse_term fuel p with ⟨e, p1⟩
  have h1 : p1.had_error = true := by
    have := ih.termM p h
    rwa [hu] at this
  simp only
  exact ih.comparisonLoopM e p1 h1

theorem equality_loop_mono_step (fuel : Nat) (ih : ParseErrMono fuel) :
    ∀ e p, errKeeps p (parse_equality_loop (fuel + 1) e p).2 := by
  intro e p h
  unfold parse_equality_loop
  rcases hm : parser_match_any p [.equalEqual, .notEqual] with ⟨b, p1⟩
  have h1 : p1.had_error = true := by
    have := errKeeps_match_any p [.equalEqual, .notEqual] h
    rwa [hm] at this
  cases b <;> simp only
  · exact h1
  · rcases hr : parse_comparison fuel p1 with ⟨right, p2⟩
    have h2 : p2.had_error = true := by
      have := ih.comparisonM p1 h1
      rwa [hr] at this
    simp only
    exact ih.equalityLoopM _ p2 h2

theorem equality_mono_step (fuel : Nat) (ih : ParseErrMono fuel) :
    ∀ p, errKeeps p (parse_equality (fuel + 1) p).2 := by
  intro p h
  unfold parse_equality
  rcases hu : parse_comparison fuel p with ⟨e, p1⟩
  have h1 : p1.had_error = true := by
    have := ih.comparisonM p h
    rwa [hu] at this
  simp only
  exact ih.equalityLoopM e p1 h1

theorem and_loop_mono_step (fuel : Nat) (ih : ParseErrMono fuel) :
    ∀ e p, errKeeps p (parse_logical_and_loop (fuel + 1) e p).2 := by
  intro e p h
  unfold parse_logical_and_loop
  rcases hm : parser_match p .andAnd with ⟨b, p1⟩
  have h1 : p1.had_error = true := by
    have := errKeeps_match p .andAnd h
    rwa [hm] at this
  cases b <;> simp only
  · exact h1
  · rcases hr : parse_equality fuel p1 with ⟨right, p2⟩
    have h2 : p2.had_error = true := by
      have := ih.equalityM p1 h1
      rwa [hr] at this
    simp only
    exact ih.andLoopM _ p2 h2

theorem and_mono_step (fuel : Nat) (ih : ParseErrMono fuel) :
    ∀ p, errKeeps p (parse_logical_and (fuel + 1) p).2 := by
  intro p h
  unfold parse_logical_and
  rcases hu : parse_equality fuel p with ⟨e, p1⟩
  have h1 : p1.had_error = true := by
    have := ih.equalityM p h
    rwa [hu] at this
  simp only
  exact ih.andLoopM e p1 h1

theorem or_loop_mono_step (fuel : Nat) (ih : ParseErrMono fuel) :
    ∀ e p, errKeeps p (parse_logical_or_loop (fuel + 1) e p).2 := by
  intro e p h
  unfold parse_logical_or_loop
  rcases hm : parser_match p .orOr with ⟨b, p1⟩
  have h1 : p1.had_error = true := by
    have := errKeeps_match p .orOr h
    rwa [hm] at this
  cases b <;> simp only
  · exact h1
  · rcases hr : parse_logical_and fuel p1 with ⟨right, p2⟩
    have h2 : p2.had_error = true := by
      have := ih.andM p1 h1
      rwa [hr] at this
    simp only
    exact ih.orLoopM _ p2 h2

theorem or_mono_step (fuel : Nat) (ih : ParseErrMono fuel) :
    ∀ p, errKeeps p (parse_logical_or (fuel + 1) p).2 := by
  intro p h
  unfold parse_logical_or
  rcases hu : parse_logical_and fuel p with ⟨e, p1⟩
  have h1 : p1.had_error = true := by
    have := ih.andM p h
    rwa [hu] at this
  simp only
  exact ih.orLoopM e p1 h1

theorem expr_mono_step (fuel : Nat) (ih : ParseErrMono fuel) :
    ∀ p, errKeeps p (parser_parse_expression (fuel + 1) p).2 := by
  intro p h
  unfold parser_parse_expression
  exact ih.orM p h

theorem expr_list_mono_step (fuel : Nat) (ih : ParseErrMono fuel) :
    ∀ acc p, errKeeps p (parse_expr_list (fuel + 1) acc p).2 := by
  intro acc p h
  unfold parse_expr_list
  rcases he : parser_parse_expression fuel p with ⟨element, p1⟩
  have h1 : p1.had_error = true := by
    have := ih.exprM p h
    rwa [he] at this
  simp only
  rcases hm : parser_match p1 .comma with ⟨b, p2⟩
  have h2 : p2.had_error = true := by
    have := errKeeps_match p1 .comma h1
    rwa [hm] at this
  cases b <;> simp only
  · exact h2
  · exact ih.exprListM _ p2 h2

theorem postfix_expr_mono_step (fuel : Nat) (ih : ParseErrMono fuel) :
    ∀ p, errKeeps p (parse_postfix_expr (fuel + 1) p).2 := by
  intro p h
  unfold parse_postfix_expr
  rcases hp : parser_parse_primary fuel p with ⟨e, p1⟩
  have h1 : p1.had_error = true := by
    have := ih.primaryM p h
    rwa [hp] at this
  simp only
  exact ih.postfixContM e p1 h1

theorem unary_mono_step (fuel : Nat) (ih : ParseErrMono fuel) :
    ∀ p, errKeeps p (parse_unary (fuel + 1) p).2 := by
  intro p h
  unfold parse_unary
  rcases hm1 : parser_match p .minus with ⟨b1, p1⟩
  have h1 : p1.had_error = true := by
    have := errKeeps_match p .minus h
    rwa [hm1] at this
  cases b1 <;> simp only
  · rcases hm2 : parser_match p1 .bang with ⟨b2, p2⟩
    have h2 : p2.had_error = true := by
      have := errKeeps_match p1 .bang h1
      rwa [hm2] at this
    cases b2 <;> simp only
    · rcases hm3 : parser_match p2 .tilde with ⟨b3, p3⟩
      have h3 : p3.had_error = true := by
        have := errKeeps_match p2 .tilde h2
        rwa [hm3] at this
      cases b3 <;> simp only
      · exact ih.postfixExprM p3 h3
      · rcases hu : parse_unary fuel p3 with ⟨operand, p4⟩
        have h4 : p4.had_error = true := by
          have := ih.unaryM p3 h3
          rwa [hu] at this
        simp only
        exact h4
    · rcases hu : parse_unary fuel p2 with ⟨operand, p3⟩
      have h3 : p3.had_error = true := by
        have := ih.unaryM p2 h2
        rwa [hu] at this
      simp only
      exact h3
  · rcases hu : parse_unary fuel p1 with ⟨operand, p2⟩
    have h2 : p2.had_error = true := by
      have := ih.unaryM p1 h1
      rwa [hu] at this
    simp only
    exact h2

theorem postfix_cont_mono_step (fuel : Nat) (ih : ParseErrMono fuel) :
    ∀ e p, errKeeps p (parse_postfix_continue (fuel + 1) e p).2 := by
  intro e p h
  unfold parse_postfix_continue
  rcases hm1 : parser_match p .leftParen with ⟨b1, p1⟩
  have h1 : p1.had_error = true := by
    have := errKeeps_match p .leftParen h
    rwa [hm1] at this
  cases b1 <;> dsimp only
  case false =>
    rcases hm2 : parser_match p1 .leftBracket with ⟨b2, p2⟩
    have h2 : p2.had_error = true := by
      have := errKeeps_match p1 .leftBracket h1
      rwa [hm2] at this
    cases b2 <;> dsimp only
    case false =>
      rcases hm3 : parser_match p2 .dot with ⟨b3, p3⟩
      have h3 : p3.had_error = true := by
        have := errKeeps_match p2 .dot h2
        rwa [hm3] at this
      cases b3 <;> dsimp only
      case false => exact h3
      case true =>
        rcases hx : parser_expect p3 .identifier
            "Expected property name after \x27.\x27" with ⟨memberTok, p4⟩
        have h4 : p4.had_error = true := by
          have := errKeeps_expect p3 .identifier
            "Expected property name after \x27.\x27" h3
          rwa [hx] at this
        dsimp only
        exact ih.postfixContM _ p4 h4
    case true =>
      rcases hi : parser_parse_expression fuel p2 with ⟨idx, p3⟩
      have h3 : p3.had_error = true := by
        have := ih.exprM p2 h2
        rwa [hi] at this
      dsimp only
      rcases hx : parser_expect p3 .rightBracket
          "Expected \x27]\x27 after index" with ⟨bracket, p4⟩
      have h4 : p4.had_error = true := by
        have := errKeeps_expect p3 .rightBracket
          "Expected \x27]\x27 after index" h3
        rwa [hx] at this
      dsimp only
      exact ih.postfixContM _ p4 h4
  case true =>
    cases hc : parser_check p1 .rightParen
    case false =>
      simp only [Bool.false_eq_true, reduceIte]
      rcases hl : parse_expr_list fuel [] p1 with ⟨args, p2⟩
      have h2 : p2.had_error = true := by
        have := ih.exprListM [] p1 h1
        rwa [hl] at this
      rcases hx : parser_expect p2 .rightParen
          "Expected \x27)\x27 after arguments" with ⟨paren, p3⟩
      have h3 : p3.had_error = true := by
        have := errKeeps_expect p2 .rightParen
          "Expected \x27)\x27 after arguments" h2
        rwa [hx] at this
      exact ih.postfixContM _ p3 h3
    case true =>
      simp only [reduceIte]
      rcases hx : parser_expect p1 .rightParen
          "Expected \x27)\x27 after arguments" with ⟨paren, p2⟩
      have h2 : p2.had_error = true := by
        have := errKeeps_expect p1 .rightParen
          "Expected \x27)\x27 after arguments" h1
        rwa [hx] at this
      dsimp only
      exact ih.postfixContM _ p2 h2

set_option maxHeartbeats 1600000 in
theorem primary_mono_step (fuel : Nat) (ih : ParseErrMono fuel) :
    ∀ p, errKeeps p (parser_parse_primary (fuel + 1) p).2 := by
  intro p h
  unfold parser_parse_primary
  split
  · exact h
  rcases hm1 : parser_match p .int with ⟨b1, p1⟩
  have h1 : p1.had_error = true := by
    have := errKeeps_match p .int h
    rwa [hm1] at this
  cases b1 <;> dsimp only
  case true => exact h1
  case false =>
  rcases hm2 : parser_match p1 .float with ⟨b2, p2⟩
  have h2 : p2.had_error = true := by
    have := errKeeps_match p1 .float h1
    rwa [hm2] at this
  cases b2 <;> dsimp only
  case true => exact h2
  case false =>
  rcases hm3 : parser_match p2 .string with ⟨b3, p3⟩
  have h3 : p3.had_error = true := by
    have := errKeeps_match p2 .string h2
    rwa [hm3] at this
  cases b3 <;> dsimp only
  case true => exact h3
  case false =>
  rcases hm4 : parser_match p3 .boolTrue with ⟨b4, p4⟩
  have h4 : p4.had_error = true := by
    have := errKeeps_match p3 .boolTrue h3
    rwa [hm4] at this
  cases b4 <;> dsimp only
  case true => exact h4
  case false =>
  rcases hm5 : parser_match p4 .boolFalse with ⟨b5, p5⟩
  have h5 : p5.had_error = true := by
    have := errKeeps_match p4 .boolFalse h4
    rwa [hm5] at this
  cases b5 <;> dsimp only
  case true => exact h5
  case false =>
  rcases hm6 : parser_match p5 .identifier with ⟨b6, p6⟩
  have h6 : p6.had_error = true := by
    have := errKeeps_match p5 .identifier h5
    rwa [hm6] at this
  cases b6 <;> dsimp only
  case true => exact h6
  case false =>
  rcases hm7 : parser_match p6 .leftParen with ⟨b7, p7⟩
  have h7 : p7.had_error = true := by
    have := errKeeps_match p6 .leftParen h6
    rwa [hm7] at this
  cases b7 <;> dsimp only
  case true =>
    rcases he : parser_parse_expression fuel p7 with ⟨expr, p8⟩
    have h8 : p8.had_error = true := by
      have := ih.exprM p7 h7
      rwa [he] at this
    cases expr <;> dsimp only
    case none => exact errKeeps_error p8 "Expected expression after \x27(\x27" h8
    case some e =>
      rcases hx : parser_expect p8 .rightParen
          "Expected \x27)\x27 after expression" with ⟨tok, p9⟩
      have h9 : p9.had_error = true := by
        have := errKeeps_expect p8 .rightParen
          "Expected \x27)\x27 after expression" h8
        rwa [hx] at this
      dsimp only
      exact h9
  case false =>
  rcases hm8 : parser_match p7 .leftBracket with ⟨b8, p8⟩
  have h8 : p8.had_error = true := by
    have := errKeeps_match p7 .leftBracket h7
    rwa [hm8] at this
  cases b8 <;> dsimp only
  case false => exact errKeeps_error_at_current p8 "Expected expression" h8
  case true =>
    cases hc : parser_check p8 .rightBracket
    case false =>
      simp only [Bool.false_eq_true, reduceIte]
      rcases hl : parse_expr_list fuel [] p8 with ⟨elements, p9⟩
      have h9 : p9.had_error = true := by
        have := ih.exprListM [] p8 h8
        rwa [hl] at this
      rcases hx : parser_expect p9 .rightBracket
          "Expected \x27]\x27 after array elements" with ⟨tok, p10⟩
      have h10 : p10.had_error = true := by
        have := errKeeps_expect p9 .rightBracket
          "Expected \x27]\x27 after array elements" h9
        rwa [hx] at this
      exact h10
    case true =>
      simp only [reduceIte]
      rcases hx : parser_expect p8 .rightBracket
          "Expected \x27]\x27 after array elements" with ⟨tok, p9⟩
      have h9 : p9.had_error = true := by
        have := errKeeps_expect p8 .rightBracket
          "Expected \x27]\x27 after array elements" h8
        rwa [hx] at this
      dsimp only
      exact h9

theorem block_loop_mono_step (fuel : Nat) (ih : ParseErrMono fuel) :
    ∀ acc p, errKeeps p (parse_block_loop (fuel + 1) acc p).2 := by
  intro acc p h
  unfold parse_block_loop
  split
  · exact h
  · rcases hs : parser_parse_statement fuel p with ⟨stmt, p1⟩
    have h1 : p1.had_error = true := by
      have := ih.stmtM p h
      rwa [hs] at this
    cases stmt <;> dsimp only
    case none => exact ih.blockLoopM acc p1 h1
    case some => exact ih.blockLoopM _ p1 h1

theorem block_mono_step (fuel : Nat) (ih : ParseErrMono fuel) :
    ∀ p, errKeeps p (parse_block_statement (fuel + 1) p).2 := by
  intro p h
  unfold parse_block_statement
  rcases hx1 : parser_expect p .leftBrace "Expected \x27\x7b\x27 to begin block"
    with ⟨brace, p1⟩
  have h1 : p1.had_error = true := by
    have := errKeeps_expect p .leftBrace "Expected \x27\x7b\x27 to begin block" h
    rwa [hx1] at this
  dsimp only
  rcases hl : parse_block_loop fuel [] p1 with ⟨stmts, p2⟩
  have h2 : p2.had_error = true := by
    have := ih.blockLoopM [] p1 h1
    rwa [hl] at this
  dsimp only
  rcases hx2 : parser_expect p2 .rightBrace "Expected \x27\x7d\x27 after block"
    with ⟨t2, p3⟩
  have h3 : p3.had_error = true := by
    have := errKeeps_expect p2 .rightBrace "Expected \x27\x7d\x27 after block" h2
    rwa [hx2] at this
  dsimp only
  exact h3

theorem if_mono_step (fuel : Nat) (ih : ParseErrMono fuel) :
    ∀ p, errKeeps p (parse_if_statement (fuel + 1) p).2 := by
  intro p h
  unfold parse_if_statement
  rcases he : parser_parse_expression fuel p with ⟨condition, p1⟩
  have h1 : p1.had_error = true := by
    have := ih.exprM p h
    rwa [he] at this
  cases condition <;> dsimp only
  case none => exact errKeeps_error p1 "Expected condition in if statement" h1
  case some cond =>
    have hthen : ∀ q : Parser, q.had_error = true →
        ((if parser_check q .leftBrace = true then parse_block_statement fuel q
          else parser_parse_statement fuel q)).2.had_error = true := by
      intro q hq
      split
      · exact ih.blockM q hq
      · exact ih.stmtM q hq
    rcases hb : (if parser_check p1 .leftBrace = true
        then parse_block_statement fuel p1
        else parser_parse_statement fuel p1) with ⟨thenBranch, p2⟩
    have h2 : p2.had_error = true := by
      have := hthen p1 h1
      rwa [hb] at this
    dsimp only
    rcases hm : parser_match p2 .kwElse with ⟨b, p3⟩
    have h3 : p3.had_error = true := by
      have := errKeeps_match p2 .kwElse h2
      rwa [hm] at this
    cases b <;> dsimp only
    case false => exact h3
    case true =>
      cases hkif : parser_check p3 .kwIf
      case true =>
        simp only [reduceIte]
        rcases hi : parse_if_statement fuel (parser_advance p3)
          with ⟨elseB, p4⟩
        have h4 : p4.had_error = true := by
          have := ih.ifM (parser_advance p3) (errKeeps_advance p3 h3)
          rwa [hi] at this
        dsimp only
        exact h4
      case false =>
        simp only [Bool.false_eq_true, reduceIte]
        split
        · rcases hbb : parse_block_statement fuel p3 with ⟨elseB, p4⟩
          have h4 : p4.had_error = true := by
            have := ih.blockM p3 h3
            rwa [hbb] at this
          dsimp only
          exact h4
        · rcases hss : parser_parse_statement fuel p3 with ⟨elseB, p4⟩
          have h4 : p4.had_error = true := by
            have := ih.stmtM p3 h3
            rwa [hss] at this
          dsimp only
          exact h4

theorem while_mono_step (fuel : Nat) (ih : ParseErrMono fuel) :
    ∀ p, errKeeps p (parse_while_statement (fuel + 1) p).2 := by
  intro p h
  unfold parse_while_statement
  rcases he : parser_parse_expression fuel p with ⟨condition, p1⟩
  have h1 : p1.had_error = true := by
    have := ih.exprM p h
    rwa [he] at this
  cases condition <;> dsimp only
  case none => exact errKeeps_error p1 "Expected condition in while statement" h1
  case some cond =>
    rcases hb : (if parser_check p1 .leftBrace = true
        then parse_block_statement fuel p1
        else parser_parse_statement fuel p1) with ⟨body, p2⟩
    have h2 : p2.had_error = true := by
      have : ((if parser_check p1 .leftBrace = true
          then parse_block_statement fuel p1
          else parser_parse_statement fuel p1)).2.had_error = true := by
        split
        · exact ih.blockM p1 h1
        · exact ih.stmtM p1 h1
      rwa [hb] at this
    dsimp only
    exact h2

theorem for_mono_step (fuel : Nat) (ih : ParseErrMono fuel) :
    ∀ p, errKeeps p (parse_for_statement (fuel + 1) p).2 := by
  intro p h
  unfold parse_for_statement
  rcases hx1 : parser_expect p .identifier "Expected variable name in for loop"
    with ⟨varTok, p1⟩
  have h1 : p1.had_error = true := by
    have := errKeeps_expect p .identifier "Expected variable name in for loop" h
    rwa [hx1] at this
  dsimp only
  rcases hm : parser_match p1 .comma with ⟨b, p2⟩
  have h2 : p2.had_error = true := by
    have := errKeeps_match p1 .comma h1
    rwa [hm] at this
  cases b
  case true =>
    simp only [reduceIte]
    rcases hx2 : parser_expect p2 .identifier
        "Expected value variable after \x27,\x27" with ⟨valueTok, p3⟩
    have h3 : p3.had_error = true := by
      have := errKeeps_expect p2 .identifier
        "Expected value variable after \x27,\x27" h2
      rwa [hx2] at this
    dsimp only
    rcases hx3 : parser_expect p3 .kwIn "Expected \x27in\x27 in for loop"
      with ⟨t3, p4⟩
    have h4 : p4.had_error = true := by
      have := errKeeps_expect p3 .kwIn "Expected \x27in\x27 in for loop" h3
      rwa [hx3] at this
    dsimp only
    rcases he : parser_parse_expression fuel p4 with ⟨iterable, p5⟩
    have h5 : p5.had_error = true := by
      have := ih.exprM p4 h4
      rwa [he] at this
    cases iterable <;> dsimp only
    case none =>
      exact errKeeps_error p5 "Expected iterable expression in for loop" h5
    case some iter =>
      rcases hb2 : (if parser_check p5 .leftBrace = true
          then parse_block_statement fuel p5
          else parser_parse_statement fuel p5) with ⟨body, p6⟩
      have h6 : p6.had_error = true := by
        have : ((if parser_check p5 .leftBrace = true
            then parse_block_statement fuel p5
            else parser_parse_statement fuel p5)).2.had_error = true := by
          split
          · exact ih.blockM p5 h5
          · exact ih.stmtM p5 h5
        rwa [hb2] at this
      dsimp only
      exact h6
  case false =>
    simp only [Bool.false_eq_true, reduceIte]
    rcases hx3 : parser_expect p2 .kwIn "Expected \x27in\x27 in for loop"
      with ⟨t3, p4⟩
    have h4 : p4.had_error = true := by
      have := errKeeps_expect p2 .kwIn "Expected \x27in\x27 in for loop" h2
      rwa [hx3] at this
    dsimp only
    rcases he : parser_parse_expression fuel p4 with ⟨iterable, p5⟩
    have h5 : p5.had_error = true := by
      have := ih.exprM p4 h4
      rwa [he] at this
    cases iterable <;> dsimp only
    case none =>
      exact errKeeps_error p5 "Expected iterable expression in for loop" h5
    case some iter =>
      rcases hb2 : (if parser_check p5 .leftBrace = true
          then parse_block_statement fuel p5
          else parser_parse_statement fuel p5) with ⟨body, p6⟩
      have h6 : p6.had_error = true := by
        have : ((if parser_check p5 .leftBrace = true
            then parse_block_statement fuel p5
            else parser_parse_statement fuel p5)).2.had_error = true := by
          split
          · exact ih.blockM p5 h5
          · exact ih.stmtM p5 h5
        rwa [hb2] at this
      dsimp only
      exact h6

theorem loop_mono_step (fuel : Nat) (ih : ParseErrMono fuel) :
    ∀ p, errKeeps p (parse_loop_statement (fuel + 1) p).2 := by
  intro p h
  unfold parse_loop_statement
  rcases hb : (if parser_check p .leftBrace = true
      then parse_block_statement fuel p
      else parser_parse_statement fuel p) with ⟨body, p1⟩
  have h1 : p1.had_error = true := by
    have : ((if parser_check p .leftBrace = true
        then parse_block_statement fuel p
        else parser_parse_statement fuel p)).2.had_error = true := by
      split
      · exact ih.blockM p h
      · exact ih.stmtM p h
    rwa [hb] at this
  dsimp only
  exact h1

theorem return_mono_step (fuel : Nat) (ih : ParseErrMono fuel) :
    ∀ p, errKeeps p (parse_return_statement (fuel + 1) p).2 := by
  intro p h
  unfold parse_return_statement
  dsimp only
  split
  · exact ih.exprM p h
  · exact h

theorem param_list_mono_step (fuel : Nat) (ih : ParseErrMono fuel) :
    ∀ acc p, errKeeps p (parse_param_list (fuel + 1) acc p).2 := by
  intro acc p h
  unfold parse_param_list
  rcases hx1 : parser_expect p .identifier "Expected parameter name"
    with ⟨paramTok, p1⟩
  have h1 : p1.had_error = true := by
    have := errKeeps_expect p .identifier "Expected parameter name" h
    rwa [hx1] at this
  dsimp only
  rcases hm : parser_match p1 .colon with ⟨b, p2⟩
  have h2 : p2.had_error = true := by
    have := errKeeps_match p1 .colon h1
    rwa [hm] at this
  cases b
  case true =>
    simp only [reduceIte]
    rcases hx2 : parser_expect p2 .identifier "Expected parameter type"
      with ⟨typeTok, p3⟩
    have h3 : p3.had_error = true := by
      have := errKeeps_expect p2 .identifier "Expected parameter type" h2
      rwa [hx2] at this
    dsimp only
    rcases hm2 : parser_match p3 .comma with ⟨b2, p4⟩
    have h4 : p4.had_error = true := by
      have := errKeeps_match p3 .comma h3
      rwa [hm2] at this
    cases b2 <;> dsimp only
    case false => exact h4
    case true => exact ih.paramListM _ p4 h4
  case false =>
    simp only [Bool.false_eq_true, reduceIte]
    rcases hm2 : parser_match p2 .comma with ⟨b2, p3⟩
    have h3 : p3.had_error = true := by
      have := errKeeps_match p2 .comma h2
      rwa [hm2] at this
    cases b2 <;> dsimp only
    case false => exact h3
    case true => exact ih.paramListM _ p3 h3

theorem func_mono_step (fuel : Nat) (ih : ParseErrMono fuel) :
    ∀ p, errKeeps p (parse_function_declaration (fuel + 1) p).2 := by
  intro p h
  unfold parse_function_declaration
  rcases hx1 : parser_expect p .identifier "Expected function name"
    with ⟨nameTok, p1⟩
  have h1 : p1.had_error = true := by
    have := errKeeps_expect p .identifier "Expected function name" h
    rwa [hx1] at this
  dsimp only
  rcases hx2 : parser_expect p1 .leftParen
      "Expected \x27(\x27 after function name" with ⟨t2, p2⟩
  have h2 : p2.had_error = true := by
    have := errKeeps_expect p1 .leftParen
      "Expected \x27(\x27 after function name" h1
    rwa [hx2] at this
  rcases hparams : (if parser_check p2 .rightParen = true
      then (([] : List Parameter), p2)
      else parse_param_list fuel [] p2) with ⟨params, p3⟩
  have h3 : p3.had_error = true := by
    have : ((if parser_check p2 .rightParen = true
        then (([] : List Parameter), p2)
        else parse_param_list fuel [] p2)).2.had_error = true := by
      split
      · exact h2
      · exact ih.paramListM [] p2 h2
    rwa [hparams] at this
  rcases hx3 : parser_expect p3 .rightParen "Expected \x27)\x27 after parameters"
    with ⟨t3, p4⟩
  have h4 : p4.had_error = true := by
    have := errKeeps_expect p3 .rightParen
      "Expected \x27)\x27 after parameters" h3
    rwa [hx3] at this
  rcases hm : parser_match p4 .arrow with ⟨b, p5⟩
  have h5 : p5.had_error = true := by
    have := errKeeps_match p4 .arrow h4
    rwa [hm] at this
  cases b
  case true =>
    rcases hx4 : parser_expect p5 .identifier "Expected return type"
      with ⟨typeTok, p6⟩
    have h6 : p6.had_error = true := by
      have := errKeeps_expect p5 .identifier "Expected return type" h5
      rwa [hx4] at this
    rcases hbl : parse_block_statement fuel p6 with ⟨body, p7⟩
    have h7 : p7.had_error = true := by
      have := ih.blockM p6 h6
      rwa [hbl] at this
    simp only [hx1, hx2, hparams, hx3, hm, hx4, hbl, reduceIte]
    exact h7
  case false =>
    rcases hbl : parse_block_statement fuel p5 with ⟨body, p6⟩
    have h6 : p6.had_error = true := by
      have := ih.blockM p5 h5
      rwa [hbl] at this
    simp only [hx1, hx2, hparams, hx3, hm, hbl, Bool.false_eq_true, reduceIte]
    exact h6

set_option maxHeartbeats 1600000 in
theorem stmt_mono_step (fuel : Nat) (ih : ParseErrMono fuel) :
    ∀ p, errKeeps p (parser_parse_statement (fuel + 1) p).2 := by
  intro p h
  unfold parser_parse_statement
  cases hid : parser_check p .identifier
  case true =>
    rw [if_pos rfl]
    dsimp only
    have hadv : (parser_advance p).had_error = true := errKeeps_advance p h
    cases hcol : parser_check (parser_advance p) .colon
    case true =>
      rw [if_pos rfl]
      dsimp only
      have hadv2 : (parser_advance (parser_advance p)).had_error = true :=
        errKeeps_advance _ hadv
      rcases hx1 : parser_expect (parser_advance (parser_advance p)) .identifier
          "Expected type name" with ⟨typeTok, p1⟩
      have h1 : p1.had_error = true := by
        have := errKeeps_expect (parser_advance (parser_advance p)) .identifier
          "Expected type name" hadv2
        rwa [hx1] at this
      dsimp only
      rcases hx2 : parser_expect p1 .equal "Expected \x27=\x27 after type"
        with ⟨t2, p2⟩
      have h2 : p2.had_error = true := by
        have := errKeeps_expect p1 .equal "Expected \x27=\x27 after type" h1
        rwa [hx2] at this
      dsimp only
      rcases he : parser_parse_expression fuel p2 with ⟨init, p3⟩
      have h3 : p3.had_error = true := by
        have := ih.exprM p2 h2
        rwa [he] at this
      dsimp only
      exact h3
    case false =>
      rw [if_neg Bool.false_ne_true]
      cases heq : parser_check (parser_advance p) .equal
      case true =>
        rw [if_pos rfl]
        dsimp only
        have hadv2 : (parser_advance (parser_advance p)).had_error = true :=
          errKeeps_advance _ hadv
        rcases he : parser_parse_expression fuel
            (parser_advance (parser_advance p)) with ⟨value, p1⟩
        have h1 : p1.had_error = true := by
          have := ih.exprM (parser_advance (parser_advance p)) hadv2
          rwa [he] at this
        dsimp only
        exact h1
      case false =>
        rw [if_neg Bool.false_ne_true]
        rcases hpc : parse_postfix_continue fuel
            (some (AstNode.identifier p.current.lexeme p.current.line
              p.current.column)) (parser_advance p) with ⟨expr2, p1⟩
        have h1 : p1.had_error = true := by
          have := ih.postfixContM
            (some (AstNode.identifier p.current.lexeme p.current.line
              p.current.column)) (parser_advance p) hadv
          rwa [hpc] at this
        cases expr2 <;> dsimp only
        case none => exact h1
        case some => exact h1
  case false =>
    rw [if_neg Bool.false_ne_true]
    rcases hm1 : parser_match p .kwIf with ⟨b1, p1⟩
    have h1 : p1.had_error = true := by
      have := errKeeps_match p .kwIf h
      rwa [hm1] at this
    cases b1 <;> dsimp only
    case true => exact ih.ifM p1 h1
    case false =>
    rcases hm2 : parser_match p1 .kwWhile with ⟨b2, p2⟩
    have h2 : p2.had_error = true := by
      have := errKeeps_match p1 .kwWhile h1
      rwa [hm2] at this
    cases b2 <;> dsimp only
    case true => exact ih.whileM p2 h2
    case false =>
    rcases hm3 : parser_match p2 .kwFor with ⟨b3, p3⟩
    have h3 : p3.had_error = true := by
      have := errKeeps_match p2 .kwFor h2
      rwa [hm3] at this
    cases b3 <;> dsimp only
    case true => exact ih.forM p3 h3
    case false =>
    rcases hm4 : parser_match p3 .kwLoop with ⟨b4, p4⟩
    have h4 : p4.had_error = true := by
      have := errKeeps_match p3 .kwLoop h3
      rwa [hm4] at this
    cases b4 <;> dsimp only
    case true => exact ih.loopM p4 h4
    case false =>
    rcases hm5 : parser_match p4 .kwReturn with ⟨b5, p5⟩
    have h5 : p5.had_error = true := by
      have := errKeeps_match p4 .kwReturn h4
      rwa [hm5] at this
    cases b5 <;> dsimp only
    case true => exact ih.returnM p5 h5
    case false =>
    rcases hm6 : parser_match p5 .kwBreak with ⟨b6, p6⟩
    have h6 : p6.had_error = true := by
      have := errKeeps_match p5 .kwBreak h5
      rwa [hm6] at this
    cases b6 <;> dsimp only
    case true => exact h6
    case false =>
    rcases hm7 : parser_match p6 .kwContinue with ⟨b7, p7⟩
    have h7 : p7.had_error = true := by
      have := errKeeps_match p6 .kwContinue h6
      rwa [hm7] at this
    cases b7 <;> dsimp only
    case true => exact h7
    case false =>
    rcases he : parser_parse_expression fuel p7 with ⟨expr, p8⟩
    have h8 : p8.had_error = true := by
      have := ih.exprM p7 h7
      rwa [he] at this
    cases expr <;> dsimp only
    case none => exact h8
    case some => exact h8

theorem decl_mono_step (fuel : Nat) (ih : ParseErrMono fuel) :
    ∀ p, errKeeps p (parser_parse_declaration (fuel + 1) p).2 := by
  intro p h
  have hm := errKeeps_match p .kwFunc h
  unfold parser_parse_declaration
  dsimp only
  split
  · exact ih.funcM _ hm
  · exact ih.stmtM _ hm

theorem prog_loop_mono_step (fuel : Nat) (ih : ParseErrMono fuel) :
    ∀ acc p, errKeeps p (parse_program_loop (fuel + 1) acc p).2 := by
  intro acc p h
  unfold parse_program_loop
  split
  · exact h
  · rcases hd : parser_parse_declaration fuel p with ⟨decl, p1⟩
    have h1 : p1.had_error = true := by
      have := ih.declM p h
      rwa [hd] at this
    have hkeep : ((if p1.panic_mode = true
        then parser_synchronize p1 else p1)).had_error = true := by
      split
      · exact errKeeps_synchronize p1 h1
      · exact h1
    cases decl <;> dsimp only
    case none => exact ih.progLoopM _ _ hkeep
    case some => exact ih.progLoopM _ _ hkeep

/-- Sticky-error-flag monotonicity for every recursive parse function,
at every fuel value: no parse operation ever clears `had_error`. -/
theorem parse_err_mono : ∀ fuel, ParseErrMono fuel
  | 0 =>
    ⟨fun p => errKeeps_refl p, fun _ p => errKeeps_refl p,
     fun _ p => errKeeps_refl p, fun p => errKeeps_refl p,
     fun p => errKeeps_refl p, fun _ p => errKeeps_refl p,
     fun p => errKeeps_refl p, fun _ p => errKeeps_refl p,
     fun p => errKeeps_refl p, fun _ p => errKeeps_refl p,
     fun p => errKeeps_refl p, fun _ p => errKeeps_refl p,
     fun p => errKeeps_refl p, fun _ p => errKeeps_refl p,
     fun p => errKeeps_refl p, fun _ p => errKeeps_refl p,
     fun p => errKeeps_refl p, fun p => errKeeps_refl p,
     fun _ p => errKeeps_refl p, fun p => errKeeps_refl p,
     fun p => errKeeps_refl p, fun p => errKeeps_refl p,
     fun p => errKeeps_refl p, fun p => errKeeps_refl p,
     fun p => errKeeps_refl p, fun _ p => errKeeps_refl p,
     fun p => errKeeps_refl p, fun p => errKeeps_refl p,
     fun p => errKeeps_refl p, fun _ p => errKeeps_refl p⟩
  | fuel + 1 =>
    let ih := parse_err_mono fuel
    ⟨primary_mono_step fuel ih, expr_list_mono_step fuel ih,
     postfix_cont_mono_step fuel ih, postfix_expr_mono_step fuel ih,
     unary_mono_step fuel ih, factor_loop_mono_step fuel ih,
     factor_mono_step fuel ih, term_loop_mono_step fuel ih,
     term_mono_step fuel ih, comparison_loop_mono_step fuel ih,
     comparison_mono_step fuel ih, equality_loop_mono_step fuel ih,
     equality_mono_step fuel ih, and_loop_mono_step fuel ih,
     and_mono_step fuel ih, or_loop_mono_step fuel ih,
     or_mono_step fuel ih, expr_mono_step fuel ih,
     block_loop_mono_step fuel ih, block_mono_step fuel ih,
     if_mono_step fuel ih, while_mono_step fuel ih,
     for_mono_step fuel ih, loop_mono_step fuel ih,
     return_mono_step fuel ih, param_list_mono_step fuel ih,
     func_mono_step fuel ih, stmt_mono_step fuel ih,
     decl_mono_step fuel ih, prog_loop_mono_step fuel ih⟩

theorem errKeeps_parser_parse (fuel : Nat) (p : Parser) :
    errKeeps p (parser_parse fuel p).2 := by
  intro h
  unfold parser_parse
  rcases hl : parse_program_loop fuel [] p with ⟨decls, p1⟩
  have h1 : p1.had_error = true := by
    have := (parse_err_mono fuel).progLoopM [] p h
    rwa [hl] at this
  dsimp only
  split <;> exact h1

/-- The state returned by `parser_parse` is the state of the top-level
loop, whichever way the final error check goes. -/
theorem parser_parse_snd (fuel : Nat) (p : Parser) :
    (parser_parse fuel p).2 = (parse_program_loop fuel [] p).2 := by
  unfold parser_parse
  rcases hl : parse_program_loop fuel [] p with ⟨decls, p1⟩
  dsimp only
  split <;> rfl

/-- `parser_parse` returns the null result exactly when the sticky flag
is set at the end of the top-level loop, and otherwise the program node
over the loop's declaration list. -/
theorem parser_parse_result (fuel : Nat) (p : Parser) :
    ((parse_program_loop fuel [] p).2.had_error = true →
      (parser_parse fuel p).1 = none) ∧
    ((parse_program_loop fuel [] p).2.had_error = false →
      (parser_parse fuel p).1 =
        some (.program (parse_program_loop fuel [] p).1)) := by
  unfold parser_parse
  rcases hl : parse_program_loop fuel [] p with ⟨decls, p1⟩
  dsimp only
  constructor
  · intro h
    rw [if_pos h]
  · intro h
    rw [if_neg]
    simp [h]

/-- C1: parsing the standalone statement `print("Hello")` with
`parser_parse_statement` yields an expression-statement node wrapping a
call node whose callee is the identifier `print` and whose argument
list holds exactly one string-literal node with payload `Hello`
(quotes stripped); it is not a bare identifier node and not a null
result, and no error is reported. -/
theorem claim_C1_print_call_statement :
    (parser_parse_statement 30 (parser_init c1_tokens)).1 =
      some (.exprStmt
        (some (.call (some (.identifier "print" 1 1))
          [some (.litString "Hello" 1 7)] 1 14)) 1 14) ∧
    (parser_parse_statement 30 (parser_init c1_tokens)).2.errors = [] ∧
    (parser_parse_statement 30 (parser_init c1_tokens)).2.had_error = false :=
  ⟨rfl, rfl, rfl⟩

/-- C4: `2 + 3 * 4` parses as an addition whose right child is the
multiplication, and `(2 + 3) * 4` parses as a multiplication whose left
child is the addition: multiplicative operators bind tighter than
additive ones and parentheses override the nesting. -/
theorem claim_C4_precedence :
    (parser_parse_expression 30 (parser_init c4a_tokens)).1 =
      some (.binary .add (some (.litInt 2 1 1))
        (some (.binary .mul (some (.litInt 3 1 5))
          (some (.litInt 4 1 9)) 1 7)) 1 3) ∧
    (parser_parse_expression 30 (parser_init c4b_tokens)).1 =
      some (.binary .mul
        (some (.binary .add (some (.litInt 2 1 2))
          (some (.litInt 3 1 6)) 1 4))
        (some (.litInt 4 1 11)) 1 9) :=
  ⟨rfl, rfl⟩

/-- C5: statement-level identifier disambiguation. `x = 42` yields a
variable declaration named `x` with no declared type and integer
initializer 42; `x: int = 42` yields a variable declaration with
declared type `int`; `x.y` yields an expression statement wrapping a
member-access node. -/
theorem claim_C5_identifier_disambiguation :
    (parser_parse_statement 30 (parser_init c5a_tokens)).1 =
      some (.varDecl "x" none (some (.litInt 42 1 5)) 1 1) ∧
    (parser_parse_statement 30 (parser_init c5b_tokens)).1 =
      some (.varDecl "x" (some "int") (some (.litInt 42 1 10)) 1 1) ∧
    (parser_parse_statement 30 (parser_init c5c_tokens)).1 =
      some (.exprStmt
        (some (.member (some (.identifier "x" 1 1)) "y" 1 3)) 1 3) :=
  ⟨rfl, rfl, rfl⟩

/-- C9: `for i in X { }` binds `i` as the value variable with no index
variable; `for i, v in X { }` promotes the first name `i` to the index
variable and binds `v` as the value variable; a missing `in` (as in
`for i X { }`) is a reported error (UnexpectedToken at the token that
stands where `in` was required). -/
theorem claim_C9_for_loop_bindings :
    ((parser_parse_statement 30 (parser_init c9a_tokens)).1 =
      some (.forStmt "i" (some (.identifier "X" 1 10))
        (some (.block [] 1 12)) none 1 1) ∧
     (parser_parse_statement 30 (parser_init c9a_tokens)).2.errors = []) ∧
    ((parser_parse_statement 30 (parser_init c9b_tokens)).1 =
      some (.forStmt "v" (some (.identifier "X" 1 13))
        (some (.block [] 1 15)) (some "i") 1 1) ∧
     (parser_parse_statement 30 (parser_init c9b_tokens)).2.errors = []) ∧
    (parser_parse_statement 30 (parser_init c9c_tokens)).2.errors =
      [⟨1, 7, " at \x27X\x27", "Expected \x27in\x27 in for loop"⟩] :=
  ⟨⟨rfl, rfl⟩, ⟨rfl, rfl⟩, rfl⟩

/-- C3: on `foo( if x { }` the top-level loop reports one error for the
unclosed call, resynchronizes at the construct-starting token `if` with
panic mode cleared, and still assembles a conforming if node (condition
`x`, empty then-block, no else) as the second declaration. -/
theorem claim_C3_error_recovery_if :
    (parse_program_loop 40 [] (parser_init c3_tokens)).1 =
      [some (.exprStmt
          (some (.call (some (.identifier "foo" 1 1)) [none] 1 6)) 1 6),
       some (.ifStmt (some (.identifier "x" 1 9))
          (some (.block [] 1 11)) none 1 6)] ∧
    (parse_program_loop 40 [] (parser_init c3_tokens)).2.errors =
      [⟨1, 6, " at \x27if\x27", "Expected expression"⟩] ∧
    (parse_program_loop 40 [] (parser_init c3_tokens)).2.panic_mode = false ∧
    (parse_program_loop 40 [] (parser_init c3_tokens)).2.had_error = true :=
  ⟨rfl, rfl, rfl, rfl⟩

/-- C6 counterexample: on `if { }` (no condition expression before the
then-block) `parser_parse_statement` reports an error but yields NO
node at all — not an if node with a null condition as the claim
states. -/
theorem claim_C6_counterexample :
    (parser_parse_statement 30 (parser_init c6a_tokens)).1 = none ∧
    (parser_parse_statement 30 (parser_init c6a_tokens)).2.had_error = true ∧
    (parser_parse_statement 30 (parser_init c6a_tokens)).2.errors =
      [⟨1, 4, " at \x27\x7b\x27", "Expected expression"⟩] :=
  ⟨rfl, rfl, rfl⟩

/-- C8 counterexample: `parser_parse_primary` at a bare end-of-input
yields no node AND reports no error (the sticky flag stays clear and no
diagnostic is emitted), contradicting the claim that every primary
position without a valid starting token, including end-of-input,
reports an error. -/
theorem claim_C8_counterexample :
    (parser_parse_primary 30 (parser_init c8e_tokens)).1 = none ∧
    (parser_parse_primary 30 (parser_init c8e_tokens)).2.errors = [] ∧
    (parser_parse_primary 30 (parser_init c8e_tokens)).2.had_error = false :=
  ⟨rfl, rfl, rfl⟩

theorem parser_expect_fst (p : Parser) (tt : TokenType) (m : String) :
    (parser_expect p tt m).1 = p.current := by
  unfold parser_expect
  split <;> rfl

theorem parser_match_no (p : Parser) (tt : TokenType)
    (h : ¬ p.current.ttype = tt) : parser_match p tt = (false, p) := by
  unfold parser_match
  rw [if_neg h]

theorem silent_null_true {tt : TokenType} (h : silent_null tt = true) :
    tt = .rightParen ∨ tt = .rightBracket ∨ tt = .eof := by
  cases tt <;> simp_all [silent_null]

/-- C6 (amended): when the if condition position holds no valid
expression-starting token, the parser reports an error and
`parse_if_statement` yields NO node (a null result) — it does not build
an if node with a null condition; when a condition is present, the
then-branch (a block when `\x7b` follows) and the optional else branch,
which may itself be a chained else-if, are parsed and attached. -/
theorem claim_C6_if_condition_abort :
    (∀ (fuel : Nat) (p : Parser),
      (parser_parse_expression fuel p).1 = none →
      (parse_if_statement (fuel + 1) p).1 = none) ∧
    (parser_parse_statement 40 (parser_init c6b_tokens)).1 =
      some (.ifStmt (some (.identifier "x" 1 4)) (some (.block [] 1 6))
        (some (.ifStmt (some (.identifier "y" 1 18)) (some (.block [] 1 20))
          (some (.block [] 1 29)) 1 15)) 1 1) ∧
    (parser_parse_statement 40 (parser_init c6b_tokens)).2.errors = [] := by
  refine ⟨?_, rfl, rfl⟩
  intro fuel p h
  unfold parse_if_statement
  rcases he : parser_parse_expression fuel p with ⟨c, p1⟩
  rw [he] at h
  dsimp only at h
  subst h
  simp only [he]

/-- Closed instance of the amended C6 statement at the token stream of
`if { }`: the condition parse yields the null result, and the if parse
then yields the null result as well. -/
theorem claim_C6_witness :
    (parser_parse_expression 29 (parser_advance (parser_init c6a_tokens))).1
      = none ∧
    (parse_if_statement 30 (parser_advance (parser_init c6a_tokens))).1
      = none :=
  ⟨rfl, claim_C6_if_condition_abort.1 29
    (parser_advance (parser_init c6a_tokens)) rfl⟩

/-- C7: `parse_block_statement` always yields a block node whose
statement list is a present (possibly empty) list — even on a missing
`\x7d`, where an error is reported and the block holds the statements
gathered so far; an empty braced block parses without error. -/
theorem claim_C7_block_always_node :
    (∀ (fuel : Nat) (p : Parser), ∃ stmts,
      (parse_block_statement (fuel + 1) p).1 =
        some (.block stmts p.current.line p.current.column)) ∧
    ((parse_block_statement 30 (parser_init c7a_tokens)).1 =
      some (.block [some (.varDecl "x" none (some (.litInt 1 1 7)) 1 3)]
        1 1) ∧
     (parse_block_statement 30 (parser_init c7a_tokens)).2.errors =
      [⟨1, 8, " at end", "Expected \x27\x7d\x27 after block"⟩]) ∧
    ((parse_block_statement 30 (parser_init c7b_tokens)).1 =
      some (.block [] 1 1) ∧
     (parse_block_statement 30 (parser_init c7b_tokens)).2.errors = []) := by
  refine ⟨?_, ⟨rfl, rfl⟩, ⟨rfl, rfl⟩⟩
  intro fuel p
  unfold parse_block_statement
  rcases hx : parser_expect p .leftBrace "Expected \x27\x7b\x27 to begin block"
    with ⟨brace, p1⟩
  have hb : brace = p.current := by
    have := parser_expect_fst p .leftBrace "Expected \x27\x7b\x27 to begin block"
    rwa [hx] at this
  rcases hl : parse_block_loop fuel [] p1 with ⟨stmts, p2⟩
  rcases hx2 : parser_expect p2 .rightBrace "Expected \x27\x7d\x27 after block"
    with ⟨t2, p3⟩
  refine ⟨stmts, ?_⟩
  simp only [hx, hl, hx2]
  rw [hb]

/-- C8 (amended): parsing `()` as a primary reports an error (the
missing-expression diagnostic after `(`) and yields no node; parsing
`[]` yields an array literal with zero elements and no error; at any
primary position whose current token cannot start a primary, the result
is the null node — with an error reported at the current token EXCEPT
when the current token is `)`, `]` or end-of-file, where the null
result is returned silently and the surrounding construct is
responsible for reporting. -/
theorem claim_C8_primary_empty :
    ((parser_parse_primary 30 (parser_init c8a_tokens)).1 = none ∧
     (parser_parse_primary 30 (parser_init c8a_tokens)).2.errors =
       [⟨1, 1, " at \x27(\x27", "Expected expression after \x27(\x27"⟩]) ∧
    ((parser_parse_primary 30 (parser_init c8b_tokens)).1 =
       some (.array [] 1 1) ∧
     (parser_parse_primary 30 (parser_init c8b_tokens)).2.errors = []) ∧
    (∀ (fuel : Nat) (p : Parser), primary_starter p.current.ttype = false →
      (parser_parse_primary (fuel + 1) p).1 = none ∧
      (silent_null p.current.ttype = true →
        (parser_parse_primary (fuel + 1) p).2 = p) ∧
      (silent_null p.current.ttype = false →
        (parser_parse_primary (fuel + 1) p).2 =
          parser_error_at_current p "Expected expression")) := by
  refine ⟨⟨rfl, rfl⟩, ⟨rfl, rfl⟩, ?_⟩
  intro fuel p hstart
  by_cases hor : (p.current.ttype = .rightParen ∨
      p.current.ttype = .rightBracket ∨ p.current.ttype = .eof)
  · have hred : parser_parse_primary (fuel + 1) p = (none, p) := by
      unfold parser_parse_primary
      rw [if_pos hor]
    refine ⟨by rw [hred], fun _ => by rw [hred], fun hsil => ?_⟩
    rcases hor with h | h | h <;> rw [h] at hsil <;> simp [silent_null] at hsil
  · have hInt : ¬ p.current.ttype = .int := by
      intro hh; rw [hh] at hstart; simp [primary_starter] at hstart
    have hFloat : ¬ p.current.ttype = .float := by
      intro hh; rw [hh] at hstart; simp [primary_starter] at hstart
    have hString : ¬ p.current.ttype = .string := by
      intro hh; rw [hh] at hstart; simp [primary_starter] at hstart
    have hTrue : ¬ p.current.ttype = .boolTrue := by
      intro hh; rw [hh] at hstart; simp [primary_starter] at hstart
    have hFalse : ¬ p.current.ttype = .boolFalse := by
      intro hh; rw [hh] at hstart; simp [primary_starter] at hstart
    have hIdent : ¬ p.current.ttype = .identifier := by
      intro hh; rw [hh] at hstart; simp [primary_starter] at hstart
    have hLP : ¬ p.current.ttype = .leftParen := by
      intro hh; rw [hh] at hstart; simp [primary_starter] at hstart
    have hLB : ¬ p.current.ttype = .leftBracket := by
      intro hh; rw [hh] at hstart; simp [primary_starter] at hstart
    have hred : parser_parse_primary (fuel + 1) p =
        (none, parser_error_at_current p "Expected expression") := by
      unfold parser_parse_primary
      rw [if_neg hor]
      rw [parser_match_no p .int hInt]
      dsimp only
      rw [if_neg Bool.false_ne_true]
      rw [parser_match_no p .float hFloat]
      dsimp only
      rw [if_neg Bool.false_ne_true]
      rw [parser_match_no p .string hString]
      dsimp only
      rw [if_neg Bool.false_ne_true]
      rw [parser_match_no p .boolTrue hTrue]
      dsimp only
      rw [if_neg Bool.false_ne_true]
      rw [parser_match_no p .boolFalse hFalse]
      dsimp only
      rw [if_neg Bool.false_ne_true]
      rw [parser_match_no p .identifier hIdent]
      dsimp only
      rw [if_neg Bool.false_ne_true]
      rw [parser_match_no p .leftParen hLP]
      dsimp only
      rw [if_neg Bool.false_ne_true]
      rw [parser_match_no p .leftBracket hLB]
      dsimp only
      rw [if_neg Bool.false_ne_true]
    refine ⟨by rw [hred],
      fun hsil => absurd (silent_null_true hsil) hor,
      fun _ => by rw [hred]⟩

/-- Closed instance of the amended C8 statement at a primary position
whose current token is `+`: the null node is returned and the
missing-expression diagnostic is reported at the current token. -/
theorem claim_C8_witness :
    primary_starter (parser_init c2_tokens).current.ttype = false ∧
    (parser_parse_primary 30 (parser_init c2_tokens)).1 = none ∧
    (parser_parse_primary 30 (parser_init c2_tokens)).2 =
      parser_error_at_current (parser_init c2_tokens)
        "Expected expression" := by
  refine ⟨rfl, ?_, ?_⟩
  · exact (claim_C8_primary_empty.2.2 29 (parser_init c2_tokens) rfl).1
  · exact (claim_C8_primary_empty.2.2 29 (parser_init c2_tokens) rfl).2.2 rfl

/-- C10: a statement that begins with an identifier not followed by `:`
or `=` wraps in the expression statement only the identifier and its
postfix chain — the result of resuming postfix parsing on the
synthesized identifier node — with any following binary operator left
unconsumed (statement-parsing `a + b` yields an expression statement
wrapping just the identifier `a`, leaving `+` as the current token),
unlike the non-identifier fallback path, which parses a full
precedence-climbing expression (statement-parsing `1 + b` yields an
expression statement wrapping the whole addition). -/
theorem claim_C10_identifier_postfix_only :
    (∀ (fuel : Nat) (p : Parser),
      parser_check p .identifier = true →
      parser_check (parser_advance p) .colon = false →
      parser_check (parser_advance p) .equal = false →
      parser_parse_statement (fuel + 1) p =
        (match parse_postfix_continue fuel
            (some (.identifier p.current.lexeme p.current.line
              p.current.column)) (parser_advance p) with
         | (expr2, p2) =>
           match expr2 with
           | some e => (some (.exprStmt (some e) e.nodeLine e.nodeColumn), p2)
           | none => (none, p2))) ∧
    ((parser_parse_statement 30 (parser_init c10a_tokens)).1 =
      some (.exprStmt (some (.identifier "a" 1 1)) 1 1) ∧
     (parser_parse_statement 30 (parser_init c10a_tokens)).2.current =
       ⟨.plus, "+", 1, 3⟩ ∧
     (parser_parse_statement 30 (parser_init c10a_tokens)).2.errors = []) ∧
    (parser_parse_statement 30 (parser_init c10b_tokens)).1 =
      some (.exprStmt (some (.binary .add (some (.litInt 1 1 1))
        (some (.identifier "b" 1 5)) 1 3)) 1 3) := by
  refine ⟨?_, ⟨rfl, rfl, rfl⟩, rfl⟩
  intro fuel p hid hcol heq
  have hcol2 : ¬ parser_check (parser_advance p) .colon = true := by
    rw [hcol]; exact Bool.false_ne_true
  have heq2 : ¬ parser_check (parser_advance p) .equal = true := by
    rw [heq]; exact Bool.false_ne_true
  unfold parser_parse_statement
  rw [if_pos hid]
  dsimp only
  rw [if_neg hcol2]
  rw [if_neg heq2]

/-- Closed instance of the C10 statement at the token stream of
`a + b`: the statement result is exactly the postfix-chain resumption
wrapped as an expression statement. -/
theorem claim_C10_witness :
    parser_check (parser_init c10a_tokens) .identifier = true ∧
    parser_check (parser_advance (parser_init c10a_tokens)) .colon = false ∧
    parser_check (parser_advance (parser_init c10a_tokens)) .equal = false ∧
    parser_parse_statement 30 (parser_init c10a_tokens) =
      (match parse_postfix_continue 29 (some (.identifier "a" 1 1))
          (parser_advance (parser_init c10a_tokens)) with
       | (expr2, p2) =>
         match expr2 with
         | some e => (some (.exprStmt (some e) e.nodeLine e.nodeColumn), p2)
         | none => (none, p2)) :=
  ⟨rfl, rfl, rfl,
    claim_C10_identifier_postfix_only.1 29 (parser_init c10a_tokens)
      rfl rfl rfl⟩

/-- C2: after `parser_init`, no parser operation ever clears the sticky
error flag — once an error has been reported, `had_error` stays set
through every helper and parse function for the rest of the parse — and
`parser_parse` returns the null result (discarding the internally
assembled declarations) whenever the flag is set at the end of its
loop, and otherwise the program node owning the parsed top-level
declarations in order. -/
theorem claim_C2_sticky_error :
    ∀ (fuel : Nat) (p : Parser),
      errKeeps p (parser_advance p) ∧
      (∀ tt, errKeeps p (parser_match p tt).2) ∧
      (∀ tt m, errKeeps p (parser_expect p tt m).2) ∧
      errKeeps p (parser_synchronize p) ∧
      errKeeps p (parser_parse_primary fuel p).2 ∧
      errKeeps p (parser_parse_expression fuel p).2 ∧
      errKeeps p (parser_parse_statement fuel p).2 ∧
      errKeeps p (parser_parse_declaration fuel p).2 ∧
      errKeeps p (parser_parse fuel p).2 ∧
      ((parser_parse fuel p).2.had_error = true →
        (parser_parse fuel p).1 = none) ∧
      ((parser_parse fuel p).2.had_error = false →
        (parser_parse fuel p).1 =
          some (.program (parse_program_loop fuel [] p).1)) := by
  intro fuel p
  refine ⟨errKeeps_advance p, fun tt => errKeeps_match p tt,
    fun tt m => errKeeps_expect p tt m, errKeeps_synchronize p,
    (parse_err_mono fuel).primaryM p, (parse_err_mono fuel).exprM p,
    (parse_err_mono fuel).stmtM p, (parse_err_mono fuel).declM p,
    errKeeps_parser_parse fuel p, ?_, ?_⟩
  · intro h
    exact (parser_parse_result fuel p).1
      (by rw [← parser_parse_snd fuel p]; exact h)
  · intro h
    exact (parser_parse_result fuel p).2
      (by rw [← parser_parse_snd fuel p]; exact h)

/-- Closed instance of the C2 statement at the token stream of a lone
`+`: the parse reports an error, the flag is set at the end, the result
is the null program, and a further synchronize keeps the flag set. -/
theorem claim_C2_witness :
    (parser_parse 30 (parser_init c2_tokens)).2.had_error = true ∧
    (parser_parse 30 (parser_init c2_tokens)).1 = none ∧
    (parser_synchronize
      (parser_parse 30 (parser_init c2_tokens)).2).had_error = true := by
  have hthm := claim_C2_sticky_error 30 (parser_init c2_tokens)
  have h2 := claim_C2_sticky_error 30 ((parser_parse 30 (parser_init c2_tokens)).2)
  have herr : (parser_parse 30 (parser_init c2_tokens)).2.had_error = true := rfl
  exact ⟨herr, hthm.2.2.2.2.2.2.2.2.2.1 herr, h2.2.2.2.1 herr⟩
